import Mathlib

/-!
Verification development for the `hue` repository: the colour/style encoder
(`hue.go`, `Style.Code`) and the column-aligned tab writer (package
`tabwriter`).  The tab writer implementation file itself is not part of the
sources available here (only its test suite is), so the writer is modelled
from the specification document; the model reproduces, byte for byte, the
expected outputs recorded in the repository's test table.

Bytes are modelled as natural numbers, byte strings as `List Nat`, and the
underlying sink as a function `Nat → Bool` describing whether the n-th write
to the sink succeeds, together with an accumulated output and a sticky
failure flag.
-/

namespace Hue

/-- Upper bound on styles: there are 39 style bits (`Bold` is bit 0,
`BrightWhiteBackground` is bit 38), so `maxStyle = 1 <<< 39`. -/
def maxStyle : Nat := 1 <<< 39

/-- The switch in `Style.Code`: the SGR code of a single-bit style value.
Returns `none` for any value that is not one of the 39 declared constants. -/
def codeSingle (s : Nat) : Option String :=
  if s = 1 <<< 0 then some "1"
  else if s = 1 <<< 1 then some "2"
  else if s = 1 <<< 2 then some "3"
  else if s = 1 <<< 3 then some "4"
  else if s = 1 <<< 4 then some "7"
  else if s = 1 <<< 5 then some "8"
  else if s = 1 <<< 6 then some "9"
  else if s = 1 <<< 7 then some "30"
  else if s = 1 <<< 8 then some "31"
  else if s = 1 <<< 9 then some "32"
  else if s = 1 <<< 10 then some "33"
  else if s = 1 <<< 11 then some "34"
  else if s = 1 <<< 12 then some "35"
  else if s = 1 <<< 13 then some "36"
  else if s = 1 <<< 14 then some "37"
  else if s = 1 <<< 15 then some "40"
  else if s = 1 <<< 16 then some "41"
  else if s = 1 <<< 17 then some "42"
  else if s = 1 <<< 18 then some "43"
  else if s = 1 <<< 19 then some "44"
  else if s = 1 <<< 20 then some "45"
  else if s = 1 <<< 21 then some "46"
  else if s = 1 <<< 22 then some "47"
  else if s = 1 <<< 23 then some "90"
  else if s = 1 <<< 24 then some "91"
  else if s = 1 <<< 25 then some "92"
  else if s = 1 <<< 26 then some "93"
  else if s = 1 <<< 27 then some "94"
  else if s = 1 <<< 28 then some "95"
  else if s = 1 <<< 29 then some "96"
  else if s = 1 <<< 30 then some "97"
  else if s = 1 <<< 31 then some "100"
  else if s = 1 <<< 32 then some "101"
  else if s = 1 <<< 33 then some "102"
  else if s = 1 <<< 34 then some "103"
  else if s = 1 <<< 35 then some "104"
  else if s = 1 <<< 36 then some "105"
  else if s = 1 <<< 37 then some "106"
  else if s = 1 <<< 38 then some "107"
  else none

/-- The loop in `Style.Code` for combinations: iterate the style bits in
ascending order (`for style := Bold; style <= BrightWhiteBackground;
style <<= 1`), collecting the code of every bit set in `s`.  The inner
`style.Code()` call always hits the single-style switch, which is what
`codeSingle` is; its (unreachable) failure is propagated as in the source. -/
def collectStep (s : Nat) (acc : Except String (List String)) (i : Nat) :
    Except String (List String) :=
  match acc with
  | .error e => .error e
  | .ok cs =>
    if s &&& (1 <<< i) ≠ 0 then
      match codeSingle (1 <<< i) with
      | some c => .ok (cs ++ [c])
      | none => .error "invalid style"
    else .ok cs

/-- The loop body applied over the 39 bits. -/
def collectCodes (s : Nat) : Except String (List String) :=
  (List.range 39).foldl (collectStep s) (.ok [])

/-- Translation of `Style.Code`: reject `0` and anything `≥ maxStyle`, answer
single-bit styles from the switch, and otherwise join the codes of the set
bits with a semicolon (the `codes` stack/spill buffer in the source is
observationally the list concatenation used here). -/
def Code (s : Nat) : Except String String :=
  if s ≥ maxStyle ∨ s = 0 then
    .error ("invalid style: Style(" ++ toString s ++ ")")
  else
    match codeSingle s with
    | some c => .ok c
    | none =>
      match collectCodes s with
      | .error e => .error e
      | .ok cs => .ok (String.intercalate ";" cs)

/-- The SGR code of style bit `i` (bit index, not bit value); the reference
table the implementation is compared against. -/
def sgrOfBit (i : Nat) : String :=
  (codeSingle (1 <<< i)).getD ""

/-- The codes of the set bits of `s`, in ascending bit order. -/
def sgrList (s : Nat) : List String :=
  (List.range 39).filterMap (fun i => if s &&& (1 <<< i) ≠ 0 then some (sgrOfBit i) else none)

end Hue

namespace Tabwriter

/-- Cell record: byte size of its content, display width, and whether it was
terminated by a horizontal tab (true) as opposed to vtab/newline/formfeed. -/
structure Cell where
  size : Nat
  width : Nat
  htab : Bool
deriving Repr, DecidableEq

/-- Modelled from the spec: the immutable per-writer configuration (§3 of the
spec) plus the abstract sink, which accepts byte sequences and may fail; the
sink is modelled by `sinkOk n`, whether its n-th write succeeds.  As in the
source's `Init`, tab padding forces left alignment, which `initConfig`
applies. -/
structure Config where
  minwidth : Nat
  tabwidth : Nat
  padding : Nat
  padchar : Nat
  filterHTML : Bool
  stripEscape : Bool
  debug : Bool
  alignRight : Bool
  discardEmpty : Bool
  sinkOk : Nat → Bool

/-- Spans recognised while parsing: outside any span, inside a private
filter (0xff) span, inside an HTML tag or entity, just after ESC, or inside
an ANSI control sequence body. -/
inductive Span where
  | none
  | filter
  | tag
  | entity
  | ansiStart
  | ansiBody
deriving Repr, DecidableEq

/-- Modelled from the spec: the state of the aligned writer (the missing
`tabwriter.Writer`): collected content bytes `buf`, the position up to which
the current cell's width has been computed, the current (unterminated) cell,
the current span state, completed lines and the current line, plus the sink
observables: accumulated `output`, number of sink writes `nw`, and the sticky
`failed` flag.  `shapes` is a ghost field recording, at every flush, the
layout-relevant shape of the flushed block (line lengths and the
width/terminator data of all column cells); it does not influence behaviour. -/
structure State where
  buf : List Nat
  pos : Nat
  cellSize : Nat
  cellWidth : Nat
  span : Span
  doneLines : List (List Cell)
  curLine : List Cell
  output : List Nat
  nw : Nat
  failed : Bool
  shapes : List (List (Nat × List (Nat × Bool)))

/-- The freshly initialised writer state. -/
def initState : State :=
  { buf := [], pos := 0, cellSize := 0, cellWidth := 0, span := Span.none,
    doneLines := [], curLine := [], output := [], nw := 0, failed := false,
    shapes := [] }

/-- Whether a byte is a UTF-8 continuation byte. -/
def isCont (b : Nat) : Bool := 128 ≤ b && b < 192

/-- Fuelled UTF-8 rune counter; the fuel only serves structural recursion
and any fuel at least the length of the list is enough. -/
def runeCountF : Nat → List Nat → Nat
  | 0, _ => 0
  | _ + 1, [] => 0
  | fuel + 1, b :: rest =>
    if b < 192 then runeCountF fuel rest + 1
    else if b < 224 then
      match rest with
      | c1 :: r2 =>
        if isCont c1 then runeCountF fuel r2 + 1 else runeCountF fuel rest + 1
      | [] => 1
    else if b < 240 then
      match rest with
      | c1 :: c2 :: r3 =>
        if isCont c1 && isCont c2 then runeCountF fuel r3 + 1
        else runeCountF fuel rest + 1
      | _ => runeCountF fuel rest + 1
    else if b < 248 then
      match rest with
      | c1 :: c2 :: c3 :: r4 =>
        if isCont c1 && isCont c2 && isCont c3 then runeCountF fuel r4 + 1
        else runeCountF fuel rest + 1
      | _ => runeCountF fuel rest + 1
    else runeCountF fuel rest + 1

/-- Modelled from the spec: the number of UTF-8 runes in a byte sequence.
Each rune counts one, whatever its byte length; an invalid byte counts as
one rune.  This is the cell width measure the repository's test table pins
down (multi-byte runes such as 本 occupy one width unit). -/
def runeCount (l : List Nat) : Nat := runeCountF l.length l

/-- The pending bytes of the current cell whose width has not been counted
yet. -/
def State.pend (s : State) : List Nat := s.buf.drop s.pos

/-- Add the pending bytes' width to the current cell and mark them counted. -/
def updateWidth (s : State) : State :=
  { s with cellWidth := s.cellWidth + runeCount s.pend, pos := s.buf.length }

/-- Append one content byte to the buffer (and to the current cell). -/
def appendByte (s : State) (ch : Nat) : State :=
  { s with buf := s.buf ++ [ch], cellSize := s.cellSize + 1 }

/-- Close the current cell with the given terminator kind and add it to the
current line. -/
def terminateCell (htab : Bool) (s : State) : State :=
  { s with
    curLine := s.curLine ++ [⟨s.cellSize, s.cellWidth, htab⟩],
    cellSize := 0, cellWidth := 0 }

/-- Close the current line. -/
def addLine (s : State) : State :=
  { s with doneLines := s.doneLines ++ [s.curLine], curLine := [] }

/-- One write to the underlying sink: on success the bytes are appended to
the output, on failure the writer becomes (stickily) failed; either way the
write counts as one attempt and is never retried. -/
def write0 (cfg : Config) (bs : List Nat) (s : State) : State :=
  if s.failed then s
  else if cfg.sinkOk s.nw then
    { s with output := s.output ++ bs, nw := s.nw + 1 }
  else { s with nw := s.nw + 1, failed := true }

/-- Reset the buffered state (buffer, current cell, span, lines), keeping
the sink observables and the ghost trace. -/
def resetBuf (s : State) : State :=
  { s with
    buf := [], pos := 0, cellSize := 0, cellWidth := 0,
    span := Span.none, doneLines := [], curLine := [] }

/-- Lines of the buffer: the completed lines followed by the current one. -/
def State.lines (s : State) : List (List Cell) := s.doneLines ++ [s.curLine]

/-- Number of column cells of a line: all cells except the last one, which
holds the text before the line terminator and belongs to no column. -/
def cols (l : List Cell) : Nat := l.length - 1

/-- Modelled from the spec: padding written for one cell whose text width is
`textw` inside a column of width `cellw`.  With a tab pad character the
column width is rounded up to a multiple of `tabwidth` and whole tabs are
written; otherwise `cellw - textw` copies of the pad byte. -/
def writePadding (cfg : Config) (textw cellw : Nat) : List Nat :=
  if cfg.padchar = 9 then
    if cfg.tabwidth = 0 then []
    else
      let cw := (cellw + cfg.tabwidth - 1) / cfg.tabwidth * cfg.tabwidth
      let n := cw - textw
      List.replicate ((n + cfg.tabwidth - 1) / cfg.tabwidth) 9
  else List.replicate (cellw - textw) cfg.padchar

/-- Emit the cells of one line: an optional debug bar before every cell but
the first, then the cell content and its padding (padding before content
when aligning right); cells beyond the known column widths get no padding.
Returns the new buffer position and the emitted bytes. -/
def writeCells (cfg : Config) (widths : List Nat) (buf : List Nat) :
    Nat → Nat → List Cell → Nat × List Nat
  | _, pos, [] => (pos, [])
  | j, pos, c :: cs =>
    let bar : List Nat := if 0 < j ∧ cfg.debug then [124] else []
    let pad : List Nat :=
      if j < widths.length then writePadding cfg c.width (widths.getD j 0) else []
    let content := (buf.drop pos).take c.size
    let chunk :=
      if c.size = 0 then bar ++ pad
      else if cfg.alignRight then bar ++ pad ++ content
      else bar ++ content ++ pad
    let rest := writeCells cfg widths buf (j + 1) (pos + c.size) cs
    (rest.1, chunk ++ rest.2)

/-- Emit a list of lines (each tagged with whether it is the very last
buffered line, which receives no newline). -/
def writeLines (cfg : Config) (widths : List Nat) (buf : List Nat) :
    Nat → List (List Cell × Bool) → Nat × List Nat
  | pos, [] => (pos, [])
  | pos, lb :: ls =>
    let p := writeCells cfg widths buf 0 pos lb.1
    let rest := writeLines cfg widths buf p.1 ls
    (rest.1, p.2 ++ (if lb.2 then [] else [10]) ++ rest.2)

/-- Modelled from the spec: the width of one column, scanned over the cells
appearing in that column within a run of lines: the maximum of `minwidth`
and every cell's width plus `padding`; a column whose cells are all empty
and vtab-terminated is discardable and gets width 0 when
`DiscardEmptyColumns` is set. -/
def colWidth (cfg : Config) (cells : List Cell) : Nat :=
  let w := cells.foldl (fun w c => max w (c.width + cfg.padding)) cfg.minwidth
  let discardable := cells.all (fun c => c.width = 0 && c.htab = false)
  if discardable ∧ cfg.discardEmpty then 0 else w

/-- Whether a line has a cell in column `column`. -/
def hasCol (column : Nat) (lb : List Cell × Bool) : Bool :=
  decide (column < cols lb.1)

/-- Modelled from the spec: the recursive layout pass.  At column depth
`widths.length`, lines without a cell in that column are written with the
known widths; a maximal run of lines having the column votes on the column's
width, is laid out recursively one column deeper, and the remaining lines
are processed at the same depth.  Structural fuel bounds the recursion; the
callers supply enough fuel for the fuel branch never to be taken. -/
def formatFuel (cfg : Config) (buf : List Nat) :
    Nat → List Nat → Nat → List (List Cell × Bool) → Nat × List Nat
  | 0, _, pos, _ => (pos, [])
  | fuel + 1, widths, pos, ls =>
    let column := widths.length
    let pre := ls.takeWhile (fun lb => ! hasCol column lb)
    let rest := ls.dropWhile (fun lb => ! hasCol column lb)
    match rest with
    | [] => writeLines cfg widths buf pos pre
    | _ :: _ =>
      let p1 := writeLines cfg widths buf pos pre
      let run := rest.takeWhile (hasCol column)
      let rest2 := rest.dropWhile (hasCol column)
      let w := colWidth cfg (run.filterMap (fun lb => lb.1.getD column ⟨0, 0, false⟩))
      let p2 := formatFuel cfg buf fuel (widths ++ [w]) p1.1 run
      let p3 := formatFuel cfg buf fuel widths p2.1 rest2
      (p3.1, p1.2 ++ p2.2 ++ p3.2)

/-- Largest column count over a list of tagged lines. -/
def maxCols (ls : List (List Cell × Bool)) : Nat :=
  ls.foldr (fun lb m => max (cols lb.1) m) 0

/-- Tag every line with whether it is the last buffered line. -/
def tagLast : List (List Cell) → List (List Cell × Bool)
  | [] => []
  | [l] => [(l, true)]
  | l :: ls => (l, false) :: tagLast ls

/-- The bytes a flush of the given state would emit. -/
def emission (cfg : Config) (s : State) : List Nat :=
  let tagged := tagLast s.lines
  (formatFuel cfg s.buf (tagged.length + maxCols tagged + 1) [] 0 tagged).2

/-- Close an open span at flush time: the unterminated span degrades to
literal text, whose width is counted as plain runes. -/
def closeSpan (s : State) : State :=
  if s.span = Span.none then s
  else
    let t := updateWidth s
    { t with span := Span.none }

/-- Terminate the trailing cell at flush time if it is nonempty (a trailing
empty cell — a lone trailing tab — is dropped silently). -/
def flushTerm (s : State) : State :=
  if 0 < s.cellSize then terminateCell false (closeSpan s) else s

/-- The layout-relevant shape of the buffered lines: for every line its cell
count and the width/terminator of each of its column cells (the last cell of
a line does not participate in layout). -/
def shapeOf (s : State) : List (Nat × List (Nat × Bool)) :=
  s.lines.map (fun l => (l.length, l.dropLast.map (fun c => (c.width, c.htab))))

/-- The state a flush lays out: the trailing nonempty cell terminated (with
any open span closed) and the flushed block's shape recorded in the ghost
trace. -/
def flushPrep (s : State) : State :=
  let t := flushTerm s
  { t with shapes := t.shapes ++ [shapeOf t] }

/-- Modelled from the spec: `Flush`.  Terminate the trailing nonempty cell
(closing any open span), lay out and emit the whole buffer in a single write
to the sink (skipped when there is nothing to write), and reset the buffered
state.  The ghost trace records the flushed block's shape. -/
def flush (cfg : Config) (s : State) : State :=
  if s.failed then s
  else
    let t := flushPrep s
    let e := emission cfg t
    if e = [] then resetBuf t else resetBuf (write0 cfg e t)

/-- The debug block divider emitted after a forced flush. -/
def hbar : List Nat := [45, 45, 45, 10]

/-- Modelled from the spec: processing of a single byte while outside any
span: tab/vtab terminate the current cell, newline/formfeed additionally
terminate the line (a formfeed, or a completed line with a single cell,
forces a flush, and a forced formfeed flush in debug mode emits the block
divider), 0xff opens a private filter span (the sentinel itself is dropped
when stripping), ESC opens an ANSI sequence, and `<`/`&` open an HTML
tag/entity span when filtering HTML; anything else is cell content. -/
def stepOutside (cfg : Config) (s : State) (ch : Nat) : State :=
  if ch = 9 ∨ ch = 11 then
    terminateCell (ch = 9) (updateWidth s)
  else if ch = 10 ∨ ch = 12 then
    let s := terminateCell false (updateWidth s)
    let ncells := s.curLine.length
    let s := addLine s
    if ch = 12 ∨ ncells = 1 then
      let s := flush cfg s
      if ch = 12 ∧ cfg.debug then write0 cfg hbar s else s
    else s
  else if ch = 255 then
    let s := updateWidth s
    let s := if cfg.stripEscape then s else appendByte s ch
    { s with span := Span.filter }
  else if ch = 27 then
    let t := appendByte (updateWidth s) ch
    { t with span := Span.ansiStart }
  else if (ch = 60 ∨ ch = 38) ∧ cfg.filterHTML then
    let t := appendByte (updateWidth s) ch
    { t with span := if ch = 60 then Span.tag else Span.entity }
  else appendByte s ch

/-- Modelled from the spec: processing of a single input byte.  Inside a
span, every byte — including tabs, newlines and formfeeds — is content;
a filter span closes at the matching 0xff (contributing zero width), a tag
at `>` (zero width), an entity at `;` (width one), an ANSI sequence at a
final byte in `@`..`~` (zero width for the whole sequence).  An ESC not
followed by `[` degrades to literal content.  A failed writer ignores all
further input. -/
def step (cfg : Config) (s : State) (ch : Nat) : State :=
  if s.failed then s
  else
    match s.span with
    | Span.none => stepOutside cfg s ch
    | Span.filter =>
      if ch = 255 then
        let s := if cfg.stripEscape then s else appendByte s ch
        { s with pos := s.buf.length, span := Span.none }
      else appendByte s ch
    | Span.tag =>
      let s := appendByte s ch
      if ch = 62 then { s with pos := s.buf.length, span := Span.none } else s
    | Span.entity =>
      let s := appendByte s ch
      if ch = 59 then
        { s with
          cellWidth := s.cellWidth + 1, pos := s.buf.length,
          span := Span.none }
      else s
    | Span.ansiStart =>
      if ch = 91 then
        let t := appendByte s ch
        { t with span := Span.ansiBody }
      else stepOutside cfg { s with span := Span.none } ch
    | Span.ansiBody =>
      let s := appendByte s ch
      if 64 ≤ ch ∧ ch ≤ 126 then
        { s with pos := s.buf.length, span := Span.none }
      else s

/-- Modelled from the spec: `Write` consumes its byte slice one byte at a
time. -/
def writeBytes (cfg : Config) (bs : List Nat) (s : State) : State :=
  bs.foldl (step cfg) s

/-- Write the whole input from a fresh writer and flush. -/
def run (cfg : Config) (input : List Nat) : State :=
  flush cfg (writeBytes cfg input initState)

/-- The bytes the sink received after writing `input` and flushing. -/
def tabOutput (cfg : Config) (input : List Nat) : List Nat :=
  (run cfg input).output

/-- A sink that always succeeds. -/
def okSink : Nat → Bool := fun _ => true

/-- A sink that always fails. -/
def badSink : Nat → Bool := fun _ => false

/-- Construction of a configuration as by `Init`/`NewWriter`: a tab pad
character forces left alignment. -/
def initConfig (minwidth tabwidth padding padchar : Nat)
    (filterHTML stripEscape debug alignRight discardEmpty : Bool)
    (sinkOk : Nat → Bool) : Config :=
  { minwidth := minwidth, tabwidth := tabwidth, padding := padding,
    padchar := padchar, filterHTML := filterHTML, stripEscape := stripEscape,
    debug := debug,
    alignRight := if padchar = 9 then false else alignRight,
    discardEmpty := discardEmpty, sinkOk := sinkOk }

/-- UTF-8 encoding of a code point. -/
def encodeChar (c : Nat) : List Nat :=
  if c < 128 then [c]
  else if c < 2048 then [192 + c / 64, 128 + c % 64]
  else if c < 65536 then [224 + c / 4096, 128 + c / 64 % 64, 128 + c % 64]
  else [240 + c / 262144, 128 + c / 4096 % 64, 128 + c / 64 % 64, 128 + c % 64]

/-- The UTF-8 bytes of a string, as naturals. -/
def strBytes (s : String) : List Nat :=
  (s.data.map (fun c => encodeChar c.toNat)).flatten

/-- Shorthand for a configuration with an always-succeeding sink. -/
def mkCfg (minwidth tabwidth padding padchar : Nat)
    (filterHTML stripEscape debug alignRight discardEmpty : Bool) : Config :=
  initConfig minwidth tabwidth padding padchar
    filterHTML stripEscape debug alignRight discardEmpty okSink

/-- A byte sequence is decode-complete when the rune counter treats it as a
self-contained prefix: counting runes distributes over appending anything
after it.  The empty sequence is decode-complete, as is any sequence of
complete UTF-8 runes. -/
def decodeComplete (l : List Nat) : Prop :=
  ∀ m, runeCount (l ++ m) = runeCount l + runeCount m

/-- A terminal control sequence: ESC, `[`, any non-final bytes, and a final
byte (in `@`..`~`). -/
def escSeq (mid : List Nat) (fin : Nat) : List Nat :=
  27 :: 91 :: (mid ++ [fin])

/-- The effect a recognised control sequence has on the writer state: the
pending text's width is accounted, the sequence's bytes are appended to the
buffer verbatim (and counted in the cell's size), the position is moved past
them so they contribute zero width, and nothing else changes. -/
def escAppend (s : State) (e : List Nat) : State :=
  let t := updateWidth s
  { t with
    buf := t.buf ++ e, cellSize := t.cellSize + e.length,
    pos := t.buf.length + e.length }

/-- Whether a code point lies in the standard East-Asian wide/fullwidth
blocks (the ranges relevant to terminal double-width rendering). -/
def eastAsianWide (c : Nat) : Bool :=
  (4352 ≤ c && c ≤ 4447) ||       -- Hangul Jamo
  (11904 ≤ c && c ≤ 42191) ||     -- CJK and friends
  (43360 ≤ c && c ≤ 43391) ||
  (44032 ≤ c && c ≤ 55203) ||     -- Hangul syllables
  (63744 ≤ c && c ≤ 64255) ||     -- CJK compatibility ideographs
  (65040 ≤ c && c ≤ 65131) ||
  (65281 ≤ c && c ≤ 65376) ||     -- fullwidth forms
  (65504 ≤ c && c ≤ 65510) ||
  (131072 ≤ c && c ≤ 262141)      -- CJK extensions

/-- The width of a string under the specification's weighted-width reading:
each rune weighted by its terminal display width, East-Asian wide runes
counting 2 and others 1.  Stated on strings (runes) directly; compared
against the byte-level width the model computes. -/
def specWeightedWidth (s : String) : Nat :=
  (s.data.map (fun c => if eastAsianWide c.toNat then 2 else 1)).sum

/-- The layout-relevant projection of a line: each cell's width and
terminator kind (sizes and raw bytes do not influence computed padding). -/
def lineW (l : List Cell) : List (Nat × Bool) :=
  l.map (fun c => (c.width, c.htab))

/-- Layout simulation relation between two writer states: same span state,
no failures, identical flushed-block shapes (ghost trace) and identical
width/terminator structure of the buffered lines; the current cells' widths
agree up to a decode-complete pending prefix `p0` that the left state has
already counted and the right state has not (and inside a span the two
states agree exactly).  Two runs related by this relation compute identical
column widths and padding for every block. -/
structure Rel (s1 s2 : State) : Prop where
  f1 : s1.failed = false
  f2 : s2.failed = false
  sp : s1.span = s2.span
  sh : s1.shapes = s2.shapes
  dl : s1.doneLines.map lineW = s2.doneLines.map lineW
  cl : lineW s1.curLine = lineW s2.curLine
  pos1 : s1.pos ≤ s1.buf.length
  pos2 : s2.pos ≤ s2.buf.length
  width : ∃ p0, decodeComplete p0 ∧ s2.pend = p0 ++ s1.pend ∧
    s1.cellWidth = s2.cellWidth + runeCount p0 ∧
    (s1.span ≠ Span.none → p0 = [])

/-- Validation of the model against the repository's test table (test 1c):
a filter span's sentinels are stripped, its tab is content. -/
theorem checkTest1c :
    tabOutput (mkCfg 8 0 1 46 false true false false false) ([255, 9, 255])
      = [9] ∧
    tabOutput (mkCfg 8 0 1 46 false false false false false) ([255, 9, 255])
      = [255, 9, 255] := by decide

/-- Validation (test 1f): an unterminated ANSI sequence passes through. -/
theorem checkTest1f :
    tabOutput (mkCfg 8 0 1 46 false false false false false)
        (strBytes "abc\u001B[\tdef") = strBytes "abc\u001B[\tdef" := by decide

/-- Validation (tests 2 and 4a): newlines pass through; a lone trailing tab
terminates an empty trailing cell and prints nothing. -/
theorem checkTest2and4a :
    tabOutput (mkCfg 8 0 1 46 false false false false false) (strBytes "\n\n\n")
      = strBytes "\n\n\n" ∧
    tabOutput (mkCfg 8 0 1 46 false false false false false) (strBytes "\t")
      = [] := by decide

/-- Validation (tests 5b, 5c, 5d): minimum width padding, trailing cell
unpadded, right alignment. -/
theorem checkTest5 :
    tabOutput (mkCfg 8 0 1 46 false false false false false) (strBytes "*\t*\n")
      = strBytes "*.......*\n" ∧
    tabOutput (mkCfg 8 0 1 46 false false false false false) (strBytes "*\t*\t")
      = strBytes "*.......*" ∧
    tabOutput (mkCfg 8 0 1 46 false false false true false) (strBytes "*\t*\t")
      = strBytes ".......**" := by decide

/-- Validation (test 6): an empty first cell still occupies the padded
column width. -/
theorem checkTest6 :
    tabOutput (mkCfg 8 0 1 46 false false false false false) (strBytes "\t\n")
      = strBytes "........\n" := by decide

/-- Validation (tests 7c and 7c colours): an ANSI colour sequence changes
only the raw bytes, not the padding. -/
theorem checkTest7c :
    tabOutput (mkCfg 8 0 1 46 false false false false false)
        (strBytes "c) foo\tbar\t") = strBytes "c) foo..bar" ∧
    tabOutput (mkCfg 8 0 1 46 false false false false false)
        (strBytes "c) \u001B[93;41mfoo\u001B[0m\tbar\t")
      = strBytes "c) \u001B[93;41mfoo\u001B[0m..bar" := by decide

/-- Validation (test 7f): HTML tags are zero width, entities count one. -/
theorem checkTest7f :
    tabOutput (mkCfg 8 0 1 46 true false false false false)
        (strBytes "f) f&lt;o\t<b>bar</b>\t\n")
      = strBytes "f) f&lt;o..<b>bar</b>.....\n" := by decide

/-- Validation (test 9a): two-line block with shared column widths. -/
theorem checkTest9a :
    tabOutput (mkCfg 1 0 0 46 false false false false false)
        (strBytes "1\t2\t3\t4\n11\t222\t3333\t44444\n")
      = strBytes "1.2..3...4\n11222333344444\n" := by decide

/-- Validation (test 9b): a formfeed inside an HTML comment is content, not
a forced flush. -/
theorem checkTest9b :
    tabOutput (mkCfg 1 0 0 46 true false false false false)
        (strBytes "1\t2<!---\u000C--->\t3\t4\n11\t222\t3333\t44444\n")
      = strBytes "1.2<!---\u000C--->..3...4\n11222333344444\n" := by decide

/-- Validation (test 10a colours): colour sequences inside a block leave
every column's padding unchanged. -/
theorem checkTest10a :
    tabOutput (mkCfg 5 0 0 46 false false false false false)
        (strBytes "1\t2\t\u001B[93;41m3\u001B[0m\t4\n")
      = strBytes "1....2....\u001B[93;41m3\u001B[0m....4\n" := by decide

/-- Validation (test 12b): ragged block, shorter lines' trailing cells are
not padded. -/
theorem checkTest12b :
    tabOutput (mkCfg 2 0 0 32 false false false false false)
        (strBytes "a\tb\tc\naa\tbbb\tcccc\naaa\tbbbb\n")
      = strBytes "a  b  c\naa bbbcccc\naaabbbb\n" := by decide

/-- Validation (test 12a): right-aligned columns with two-byte runes
counting one width unit. -/
theorem checkTest12a :
    tabOutput (mkCfg 8 0 1 32 false false false true false)
        (strBytes "a\tè\tc\t\naa\tèèè\tcccc\tddddd\t\naaa\tèèèè\t\n")
      = strBytes "       a       è       c\n      aa     èèè    cccc   ddddd\n     aaa    èèèè\n" := by
  decide

/-- Validation (tests 15a-15d): empty vtab columns are discarded exactly
when the flag is set; htab columns never are. -/
theorem checkTest15 :
    tabOutput (mkCfg 4 0 0 46 false false false false false) (strBytes "a\t\tb")
      = strBytes "a.......b" ∧
    tabOutput (mkCfg 4 0 0 46 false false false false true) (strBytes "a\t\tb")
      = strBytes "a.......b" ∧
    tabOutput (mkCfg 4 0 0 46 false false false false true)
        (strBytes "a\u000B\u000Bb") = strBytes "a...b" ∧
    tabOutput (mkCfg 4 0 0 46 false false false true true)
        (strBytes "a\u000B\u000Bb") = strBytes "...ab" := by decide

/-- Validation (test 16b, first two lines): tab padding with discarded
empty vtab columns. -/
theorem checkTest16b :
    tabOutput (mkCfg 100 100 0 9 false false false false true)
        (strBytes "a\u000Bb\u000B\u000Bd\na\u000Bb\u000B\u000Bd\u000Be\n")
      = strBytes "a\tb\td\na\tb\td\te\n" := by decide

/-- Validation (test 9c): a formfeed forces a flush, splitting the input
into two independently laid out blocks. -/
theorem checkTest9c :
    tabOutput (mkCfg 1 0 0 46 false false false false false)
        (strBytes "1\t2\t3\t4\u000C11\t222\t3333\t44444\n")
      = strBytes "1234\n11222333344444\n" := by decide

/-- The layout pass of a state with an empty buffer and no lines emits
nothing. -/
theorem emission_empty (cfg : Config) (s : State)
    (hb : s.buf = []) (hd : s.doneLines = []) (hc : s.curLine = []) :
    emission cfg s = [] := by
  unfold emission State.lines
  rw [hb, hd, hc]
  rfl

/-- Flushing a state with nothing buffered changes no observable: nothing
reaches the sink, no write is attempted, no failure arises. -/
theorem flush_obs (cfg : Config) (pos cw : Nat) (sp : Span) (out : List Nat)
    (nw : Nat) (fl : Bool) (shs : List (List (Nat × List (Nat × Bool)))) :
    (flush cfg ⟨[], pos, 0, cw, sp, [], [], out, nw, fl, shs⟩).output = out ∧
    (flush cfg ⟨[], pos, 0, cw, sp, [], [], out, nw, fl, shs⟩).nw = nw ∧
    (flush cfg ⟨[], pos, 0, cw, sp, [], [], out, nw, fl, shs⟩).failed = fl := by
  cases fl
  · exact ⟨rfl, rfl, rfl⟩
  · exact ⟨rfl, rfl, rfl⟩

/-- A successful flush leaves the writer in a reset state. -/
theorem flush_eq_reset (cfg : Config) (s : State) (hf : s.failed = false) :
    ∃ t, flush cfg s = resetBuf t := by
  rw [flush, hf]
  simp only [Bool.false_eq_true, if_false]
  split
  · exact ⟨_, rfl⟩
  · exact ⟨_, rfl⟩

/-- C9: flushing a freshly initialised writer writes nothing to the sink
and reports no failure, for every configuration; and flushing twice is
observably (sink output, sink write count, failure flag) the same as
flushing once, from any state. -/
theorem C9_flush_idempotent (cfg : Config) :
    (flush cfg initState).output = [] ∧
    (flush cfg initState).nw = 0 ∧
    (flush cfg initState).failed = false ∧
    ∀ s : State,
      (flush cfg (flush cfg s)).output = (flush cfg s).output ∧
      (flush cfg (flush cfg s)).nw = (flush cfg s).nw ∧
      (flush cfg (flush cfg s)).failed = (flush cfg s).failed := by
  refine ⟨rfl, rfl, rfl, ?_⟩
  intro s
  by_cases hf : s.failed
  · have h1 : flush cfg s = s := by simp [flush, hf]
    simp [h1]
  · obtain ⟨t, ht⟩ := flush_eq_reset cfg s (by simpa using hf)
    rw [ht]
    exact flush_obs cfg 0 0 Span.none t.output t.nw t.failed t.shapes

/-- C1: writing an input in arbitrary chunks is indistinguishable from
writing it in one call: the writer state after the chunked writes equals
the state after one bulk write of the concatenation, and hence the sink
output after the final flush is identical.  One-byte-at-a-time writing is
the instance where every chunk is a singleton. -/
theorem C1_chunking_invariance (cfg : Config) (chunks : List (List Nat)) :
    chunks.foldl (fun s c => writeBytes cfg c s) initState
      = writeBytes cfg chunks.flatten initState ∧
    (flush cfg (chunks.foldl (fun s c => writeBytes cfg c s) initState)).output
      = tabOutput cfg chunks.flatten := by
  have h : ∀ (cs : List (List Nat)) (s : State),
      cs.foldl (fun s c => writeBytes cfg c s) s = writeBytes cfg cs.flatten s := by
    intro cs
    induction cs with
    | nil => intro s; rfl
    | cons c t ih =>
      intro s
      rw [List.flatten_cons, List.foldl_cons]
      rw [ih (writeBytes cfg c s)]
      unfold writeBytes
      rw [List.foldl_append]
  refine ⟨h chunks initState, ?_⟩
  rw [h chunks initState]
  rfl

/-- C8: with minwidth 8, tabwidth 0, padding 1, pad character `.` and no
flags, writing `*\t*` and flushing produces exactly `*.......*`: the first
cell of width 1 is padded with 7 dots up to the 8-column minimum and the
trailing last cell receives no padding. -/
theorem C8_concrete_layout :
    tabOutput (mkCfg 8 0 1 46 false false false false false) (strBytes "*\t*")
      = strBytes "*.......*" := by decide

/-- Folding the column-width maximum over cells of width zero yields the
padded minimum width. -/
theorem foldl_width_all_zero (padding : Nat) :
    ∀ (cells : List Cell) (a : Nat), (∀ c ∈ cells, c.width = 0) → cells ≠ [] →
      cells.foldl (fun w c => max w (c.width + padding)) a = max a padding := by
  intro cells
  induction cells with
  | nil => intro a _ h; exact absurd rfl h
  | cons c t ih =>
    intro a hall _
    have hcw : c.width = 0 := (hall c (List.mem_cons_self c t))
    rw [List.foldl_cons]
    by_cases ht : t = []
    · subst ht
      simp [hcw]
    · rw [ih (max a (c.width + padding)) (fun d hd => hall d (List.mem_cons_of_mem c hd)) ht]
      rw [hcw]
      simp [max_assoc]

/-- C3: elision correctness.  For a column scanned over a nonempty run of
cells: if every cell is empty and vtab-terminated, the computed column width
is 0 (no width, no padding) when `DiscardEmptyColumns` is set and the full
padded width `max minwidth padding` when it is unset; a column containing an
htab-terminated cell is never discarded and always receives the scanned
width.  Concretely, `a\v\vb` with minwidth 4, padding 0, padchar `.` and the
flag yields `a...b`; without the flag the empty column keeps its full padded
width, giving `a.......b`; and the htab variant `a\t\tb` is not discarded
even under the flag. -/
theorem C3_elision (cfg : Config) (cells : List Cell) (hne : cells ≠ []) :
    ((∀ c ∈ cells, c.width = 0 ∧ c.htab = false) →
      (cfg.discardEmpty = true → colWidth cfg cells = 0) ∧
      (cfg.discardEmpty = false →
        colWidth cfg cells = max cfg.minwidth cfg.padding)) ∧
    ((∃ c ∈ cells, c.htab = true) →
      colWidth cfg cells
        = cells.foldl (fun w c => max w (c.width + cfg.padding)) cfg.minwidth) ∧
    (tabOutput (mkCfg 4 0 0 46 false false false false true)
        (strBytes "a\u000B\u000Bb") = strBytes "a...b" ∧
     tabOutput (mkCfg 4 0 0 46 false false false false false)
        (strBytes "a\u000B\u000Bb") = strBytes "a.......b" ∧
     tabOutput (mkCfg 4 0 0 46 false false false false true)
        (strBytes "a\t\tb") = strBytes "a.......b") := by
  refine ⟨?_, ?_, by decide⟩
  · intro hall
    have hdisc : cells.all (fun c => c.width = 0 && c.htab = false) = true := by
      rw [List.all_eq_true]
      intro c hc
      simp [(hall c hc).1, (hall c hc).2]
    constructor
    · intro hflag
      simp only [colWidth, hdisc, hflag]
      simp
    · intro hflag
      simp only [colWidth, hdisc, hflag]
      rw [if_neg (by simp)]
      exact foldl_width_all_zero cfg.padding cells cfg.minwidth
        (fun c hc => (hall c hc).1) hne
  · intro ⟨c, hc, hhtab⟩
    have hdisc : cells.all (fun c => c.width = 0 && c.htab = false) = false := by
      rw [List.all_eq_false]
      exact ⟨c, hc, by simp [hhtab]⟩
    simp only [colWidth, hdisc]
    rw [if_neg (by simp)]

/-- Padding bytes never contain the debug bar byte. -/
theorem count_bar_writePadding (cfg : Config) (hpc : cfg.padchar ≠ 124)
    (a b : Nat) : (writePadding cfg a b).count 124 = 0 := by
  unfold writePadding
  split
  · split
    · simp
    · simp [List.count_replicate]
  · simp [List.count_replicate, hpc]

/-- In debug mode, the line emission contains one bar per cell except the
first (equivalently, one bar after every column, the trailing cell being no
column), provided neither the content bytes nor the pad character are the
bar byte. -/
theorem count_bar_writeCells (cfg : Config) (hdbg : cfg.debug = true)
    (hpc : cfg.padchar ≠ 124) (widths buf : List Nat)
    (hbuf : (124 : Nat) ∉ buf) :
    ∀ (cells : List Cell) (j pos : Nat),
      (writeCells cfg widths buf j pos cells).2.count 124
        = if j = 0 then cells.length - 1 else cells.length := by
  have hcon : ∀ n m, ((buf.drop n).take m).count 124 = 0 := by
    intro n m
    rw [List.count_eq_zero]
    intro hmem
    exact hbuf (List.mem_of_mem_drop (List.mem_of_mem_take hmem))
  intro cells
  induction cells with
  | nil => intro j pos; simp [writeCells]
  | cons c cs ih =>
    intro j pos
    by_cases hsz : c.size = 0 <;> by_cases har : cfg.alignRight = true <;>
      rcases j with _ | k <;>
        simp [writeCells, hsz, har, hdbg, List.count_append,
          apply_ite (List.count 124), count_bar_writePadding cfg hpc, hcon, ih]

/-- A successful write to a healthy sink appends its bytes to the output. -/
theorem write0_ok (cfg : Config) (hsink : ∀ n, cfg.sinkOk n = true)
    (bs : List Nat) (s : State) (hf : s.failed = false) :
    (write0 cfg bs s).output = s.output ++ bs := by
  simp [write0, hf, hsink]

/-- Preparing a flush does not touch the sink observables. -/
theorem flushPrep_output (s : State) : (flushPrep s).output = s.output := by
  unfold flushPrep flushTerm closeSpan
  split
  · split <;> rfl
  · rfl

/-- Preparing a flush does not touch the failure flag. -/
theorem flushPrep_failed (s : State) : (flushPrep s).failed = s.failed := by
  unfold flushPrep flushTerm closeSpan
  split
  · split <;> rfl
  · rfl

/-- Preparing a flush does not touch the sink write counter. -/
theorem flushPrep_nw (s : State) : (flushPrep s).nw = s.nw := by
  unfold flushPrep flushTerm closeSpan
  split
  · split <;> rfl
  · rfl

/-- A flush with a healthy sink cannot fail and only appends to the output. -/
theorem flush_ok (cfg : Config) (hsink : ∀ n, cfg.sinkOk n = true) (s : State)
    (hf : s.failed = false) :
    (flush cfg s).failed = false ∧ ∃ e, (flush cfg s).output = s.output ++ e := by
  simp only [flush, hf, Bool.false_eq_true, if_false]
  split
  · refine ⟨?_, [], ?_⟩
    · simp [resetBuf, flushPrep_failed, hf]
    · simp [resetBuf, flushPrep_output]
  · refine ⟨?_, emission cfg (flushPrep s), ?_⟩
    · simp [resetBuf, write0, flushPrep_failed, hf, hsink]
    · simp [resetBuf, write0, flushPrep_failed, hf, hsink, flushPrep_output]

/-- C2: debug markers.  In debug mode (with a pad character other than the
bar and bar-free cell contents) the emission of a line with N columns
contains exactly N bar bytes: one after every column's padding, including
the last column, none before the first cell.  A formfeed processed outside
any span forces a flush and then appends the `---\n` divider after the
flushed block — in particular between two blocks of different cell counts
that the forced flush separates.  Concretely, the repository's debug
formfeed scenario produces `1|2|3|4\n---\n11|222|3333|44444\n`. -/
theorem C2_debug_markers (cfg : Config) (hdbg : cfg.debug = true)
    (hpc : cfg.padchar ≠ 124) (hsink : ∀ n, cfg.sinkOk n = true)
    (widths buf : List Nat) (hbuf : (124 : Nat) ∉ buf) (line : List Cell)
    (pos : Nat) (s : State) (hf : s.failed = false) (hsp : s.span = Span.none) :
    (writeCells cfg widths buf 0 pos line).2.count 124 = cols line ∧
    (∃ e, (step cfg s 12).output = s.output ++ e ++ hbar) ∧
    tabOutput (mkCfg 1 0 0 46 false false true false false)
        (strBytes "1\t2\t3\t4\u000C11\t222\t3333\t44444\n")
      = strBytes "1|2|3|4\n---\n11|222|3333|44444\n" := by
  refine ⟨?_, ?_, by decide⟩
  · rw [count_bar_writeCells cfg hdbg hpc widths buf hbuf line 0 pos]
    simp [cols]
  · have hstep : step cfg s 12
        = write0 cfg hbar (flush cfg (addLine (terminateCell false (updateWidth s)))) := by
      simp [step, hf, hsp, stepOutside, hdbg]
    have hf2 : (addLine (terminateCell false (updateWidth s))).failed = false := hf
    have hout2 : (addLine (terminateCell false (updateWidth s))).output = s.output := rfl
    obtain ⟨hff, e, he⟩ := flush_ok cfg hsink _ hf2
    refine ⟨e, ?_⟩
    rw [hstep, write0_ok cfg hsink hbar _ hff, he, hout2]

/-- Inside a private filter span, every byte other than the closing sentinel
is plain cell content: it is appended to the buffer with no effect on cells,
lines, width or span state. -/
theorem filterSpanContent (cfg : Config) (inner : List Nat) :
    ∀ (s : State), s.failed = false → s.span = Span.filter →
      (∀ b ∈ inner, b ≠ 255) →
      writeBytes cfg inner s
        = { s with buf := s.buf ++ inner, cellSize := s.cellSize + inner.length } := by
  induction inner with
  | nil => intro s _ _ _; simp [writeBytes]
  | cons b t ih =>
    intro s hf hsp hb
    have hstep : step cfg s b = appendByte s b := by
      simp [step, hf, hsp, hb b (List.mem_cons_self b t)]
    show writeBytes cfg t (step cfg s b) = _
    rw [hstep, ih (appendByte s b) hf hsp (fun d hd => hb d (List.mem_cons_of_mem b hd))]
    simp [appendByte, List.append_assoc]
    omega

/-- Inside an HTML tag span, every byte other than `>` is plain cell
content. -/
theorem tagSpanContent (cfg : Config) (inner : List Nat) :
    ∀ (s : State), s.failed = false → s.span = Span.tag →
      (∀ b ∈ inner, b ≠ 62) →
      writeBytes cfg inner s
        = { s with buf := s.buf ++ inner, cellSize := s.cellSize + inner.length } := by
  induction inner with
  | nil => intro s _ _ _; simp [writeBytes]
  | cons b t ih =>
    intro s hf hsp hb
    have hstep : step cfg s b = appendByte s b := by
      simp [step, hf, hsp, appendByte, hb b (List.mem_cons_self b t)]
    show writeBytes cfg t (step cfg s b) = _
    rw [hstep, ih (appendByte s b) hf hsp (fun d hd => hb d (List.mem_cons_of_mem b hd))]
    simp [appendByte, List.append_assoc]
    omega

/-- Writing a concatenation processes the two parts in sequence. -/
theorem writeBytes_append (cfg : Config) (xs ys : List Nat) (s : State) :
    writeBytes cfg (xs ++ ys) s = writeBytes cfg ys (writeBytes cfg xs s) := by
  simp [writeBytes, List.foldl_append]

/-- C6: opaque filter spans suppress structure.  Writing a complete private
filter span (sentinel 0xff, arbitrary non-sentinel bytes — including tabs,
vtabs, newlines and formfeeds — then the closing sentinel) from any healthy
state outside a span only appends content bytes to the buffer: no cell and
no line is created, the cell width is unchanged (the span is zero width),
and the enclosed bytes are dropped together with the sentinels when
`StripEscape` is set and passed through verbatim otherwise.  The same holds
for a complete HTML tag span under `FilterHTML`.  Concretely, the escaped
`"foo	
	bar"` passes through with (resp. without) its sentinels, and a
formfeed inside an HTML comment does not force a flush. -/
theorem C6_opaque_spans (cfg : Config) (s : State) (inner inner2 : List Nat)
    (hf : s.failed = false) (hsp : s.span = Span.none)
    (hin : ∀ b ∈ inner, b ≠ 255) (hin2 : ∀ b ∈ inner2, b ≠ 62)
    (hhtml : cfg.filterHTML = true) :
    (writeBytes cfg (255 :: (inner ++ [255])) s
      = (let t := updateWidth s
         let content : List Nat :=
           if cfg.stripEscape then inner else 255 :: (inner ++ [255])
         { t with
           buf := t.buf ++ content, cellSize := t.cellSize + content.length,
           pos := t.buf.length + content.length, span := Span.none })) ∧
    (writeBytes cfg (60 :: (inner2 ++ [62])) s
      = (let t := updateWidth s
         let content : List Nat := 60 :: (inner2 ++ [62])
         { t with
           buf := t.buf ++ content, cellSize := t.cellSize + content.length,
           pos := t.buf.length + content.length, span := Span.none })) ∧
    (tabOutput (mkCfg 8 0 1 46 false true false false false)
        ([255] ++ strBytes "\"foo\t\n\tbar\"" ++ [255])
      = strBytes "\"foo\t\n\tbar\"" ∧
     tabOutput (mkCfg 8 0 1 46 false false false false false)
        ([255] ++ strBytes "\"foo\t\n\tbar\"" ++ [255])
      = [255] ++ strBytes "\"foo\t\n\tbar\"" ++ [255] ∧
     tabOutput (mkCfg 1 0 0 46 true false false false false)
        (strBytes "1\t2<!---\u000C--->\t3\t4\n11\t222\t3333\t44444\n")
      = strBytes "1.2<!---\u000C--->..3...4\n11222333344444\n") := by
  refine ⟨?_, ?_, by decide⟩
  · have h0 : writeBytes cfg (255 :: (inner ++ [255])) s
        = writeBytes cfg (inner ++ [255]) (step cfg s 255) := rfl
    by_cases hst : cfg.stripEscape = true
    · have h1 : step cfg s 255 = { updateWidth s with span := Span.filter } := by
        simp [step, hf, hsp, stepOutside, hst]
      rw [h0, writeBytes_append, h1,
        filterSpanContent cfg inner
          ({ updateWidth s with span := Span.filter }) hf rfl hin]
      simp [writeBytes, step, hf, hst, updateWidth, List.length_append]
    · have h1 : step cfg s 255
          = { appendByte (updateWidth s) 255 with span := Span.filter } := by
        simp [step, hf, hsp, stepOutside, hst]
      rw [h0, writeBytes_append, h1,
        filterSpanContent cfg inner
          ({ appendByte (updateWidth s) 255 with span := Span.filter }) hf rfl hin]
      simp [writeBytes, step, hf, hst, updateWidth, appendByte,
        List.append_assoc, List.length_append]
      omega
  · have h0 : writeBytes cfg (60 :: (inner2 ++ [62])) s
        = writeBytes cfg (inner2 ++ [62]) (step cfg s 60) := rfl
    have h1 : step cfg s 60
        = { appendByte (updateWidth s) 60 with span := Span.tag } := by
      simp [step, hf, hsp, stepOutside, hhtml]
    rw [h0, writeBytes_append, h1,
      tagSpanContent cfg inner2
        ({ appendByte (updateWidth s) 60 with span := Span.tag }) hf rfl hin2]
    simp [writeBytes, step, hf, updateWidth, appendByte, List.append_assoc,
      List.length_append]
    omega

/-- Outside any span, bytes that are neither terminators nor span openers
are plain cell content: they are appended to the buffer and nothing else
changes. -/
theorem plainContent (cfg : Config) (content : List Nat) :
    ∀ (s : State), s.failed = false → s.span = Span.none →
      (∀ b ∈ content,
        b ≠ 9 ∧ b ≠ 11 ∧ b ≠ 10 ∧ b ≠ 12 ∧ b ≠ 255 ∧ b ≠ 27 ∧ b ≠ 60 ∧ b ≠ 38) →
      writeBytes cfg content s
        = { s with buf := s.buf ++ content, cellSize := s.cellSize + content.length } := by
  induction content with
  | nil => intro s _ _ _; simp [writeBytes]
  | cons b t ih =>
    intro s hf hsp hb
    have hbb := hb b (List.mem_cons_self b t)
    have hstep : step cfg s b = appendByte s b := by
      simp [step, hf, hsp, stepOutside, hbb.1, hbb.2.1, hbb.2.2.1,
        hbb.2.2.2.1, hbb.2.2.2.2.1, hbb.2.2.2.2.2.1, hbb.2.2.2.2.2.2.1,
        hbb.2.2.2.2.2.2.2]
    show writeBytes cfg t (step cfg s b) = _
    rw [hstep, ih (appendByte s b) hf hsp (fun d hd => hb d (List.mem_cons_of_mem b hd))]
    simp [appendByte, List.append_assoc]
    omega

/-- C5 counterexample: the model's cell width of `本` is its rune count 1,
not the East-Asian display width 2 the claim asserts, and the computed
padding follows the rune count: in a block whose other line has a two-rune
first cell, `本` is padded with one dot (`本.b`), where a weighted width
would leave it unpadded.  This is exactly the behaviour the repository's own
test table (test 11) expects. -/
theorem C5_counterexample :
    runeCount (strBytes "本") = 1 ∧
    specWeightedWidth "本" = 2 ∧
    runeCount (strBytes "本") ≠ specWeightedWidth "本" ∧
    tabOutput (mkCfg 1 0 0 46 false false false false false)
        (strBytes "本\tb\naa\tc\n")
      = strBytes "本.b\naac\n" := by decide

/-- C5 (amended): outside recognised zero-width spans, the display width of
a cell is the number of UTF-8 runes of its content — every rune counts one
column, ASCII and East-Asian wide characters alike (本 counts 1, not 2) —
and padding is computed from this rune count.  Generally: terminating a
plain-content cell records exactly the rune count of its pending content as
the cell width; concretely, the model reproduces the repository's
multi-byte-rune scenario (test 11) byte for byte. -/
theorem C5_rune_width (cfg : Config) (s : State) (content : List Nat)
    (hf : s.failed = false) (hsp : s.span = Span.none)
    (hpos : s.pos ≤ s.buf.length)
    (hplain : ∀ b ∈ content,
      b ≠ 9 ∧ b ≠ 11 ∧ b ≠ 10 ∧ b ≠ 12 ∧ b ≠ 255 ∧ b ≠ 27 ∧ b ≠ 60 ∧ b ≠ 38) :
    (writeBytes cfg (content ++ [9]) s).curLine
      = s.curLine ++ [⟨s.cellSize + content.length,
          s.cellWidth + runeCount (s.pend ++ content), true⟩] ∧
    tabOutput (mkCfg 8 0 1 46 false false false false false)
        (strBytes "本\tb\tc\naa\t本本本\tcccc\tddddd\naaa\tbbbb\n")
      = strBytes
          "本.......b.......c\naa......本本本.....cccc....ddddd\naaa.....bbbb\n" := by
  refine ⟨?_, by decide⟩
  rw [writeBytes_append, plainContent cfg content s hf hsp hplain]
  have hstep : ∀ (u : State), u.failed = false → u.span = Span.none →
      step cfg u 9 = terminateCell true (updateWidth u) := by
    intro u huf husp
    simp [step, huf, husp, stepOutside]
  rw [show writeBytes cfg [9]
      ({ s with buf := s.buf ++ content, cellSize := s.cellSize + content.length })
      = step cfg
        ({ s with buf := s.buf ++ content, cellSize := s.cellSize + content.length }) 9
    from rfl]
  rw [hstep
    ({ s with buf := s.buf ++ content, cellSize := s.cellSize + content.length })
    hf hsp]
  simp [terminateCell, updateWidth, State.pend, List.drop_append_of_le_length hpos]

/-- C7: sink failure propagation.  If the sink fails on the (single) write a
flush performs, then: the flush reports the failure, exactly one sink write
was attempted (no retry), nothing was appended to the output, and the
buffered state (buffer and lines) is discarded rather than preserved.  The
same failure is reported by a `Write` that triggers the flush implicitly via
a formfeed, and a failed writer ignores all further input: every subsequent
step and flush is a no-op. -/
theorem C7_sink_failure (cfg : Config) (s : State)
    (hf : s.failed = false) (hsink : cfg.sinkOk s.nw = false)
    (hne : emission cfg (flushPrep s) ≠ []) :
    ((flush cfg s).failed = true ∧
     (flush cfg s).nw = s.nw + 1 ∧
     (flush cfg s).output = s.output ∧
     (flush cfg s).buf = [] ∧
     (flush cfg s).doneLines = [] ∧
     (flush cfg s).curLine = []) ∧
    (s.span = Span.none →
      emission cfg (flushPrep (addLine (terminateCell false (updateWidth s)))) ≠ [] →
      (step cfg s 12).failed = true ∧ (step cfg s 12).output = s.output) ∧
    (∀ (t : State) (ch : Nat), t.failed = true →
      step cfg t ch = t ∧ flush cfg t = t) := by
  have key : ∀ (u : State), u.failed = false → cfg.sinkOk u.nw = false →
      emission cfg (flushPrep u) ≠ [] →
      (flush cfg u).failed = true ∧
      (flush cfg u).nw = u.nw + 1 ∧
      (flush cfg u).output = u.output ∧
      (flush cfg u).buf = [] ∧
      (flush cfg u).doneLines = [] ∧
      (flush cfg u).curLine = [] := by
    intro u huf husink hune
    simp only [flush, huf, Bool.false_eq_true, if_false]
    rw [if_neg hune]
    simp [resetBuf, write0, flushPrep_failed, huf, flushPrep_nw, husink,
      flushPrep_output]
  refine ⟨key s hf hsink hne, ?_, ?_⟩
  · intro hsp hne2
    have hf2 : (addLine (terminateCell false (updateWidth s))).failed = false := hf
    have hsink2 : cfg.sinkOk (addLine (terminateCell false (updateWidth s))).nw = false :=
      hsink
    obtain ⟨k1, _, k3, _⟩ := key _ hf2 hsink2 hne2
    have hstep : step cfg s 12
        = (if (12 : Nat) = 12 ∧ cfg.debug then
            write0 cfg hbar (flush cfg (addLine (terminateCell false (updateWidth s))))
           else flush cfg (addLine (terminateCell false (updateWidth s)))) := by
      simp [step, hf, hsp, stepOutside]
    by_cases hdbg : cfg.debug = true
    · rw [hstep, if_pos (by simp [hdbg])]
      rw [show write0 cfg hbar (flush cfg (addLine (terminateCell false (updateWidth s))))
          = flush cfg (addLine (terminateCell false (updateWidth s))) by
        simp [write0, k1]]
      exact ⟨k1, k3⟩
    · rw [hstep, if_neg (by simp [hdbg])]
      exact ⟨k1, k3⟩
  · intro t ch ht
    exact ⟨by simp [step, ht], by simp [flush, ht]⟩

end Tabwriter

namespace Hue

set_option maxHeartbeats 1000000 in
/-- The switch answers every declared single-bit style with its SGR code. -/
theorem codeSingle_pow : ∀ i < 39, codeSingle (1 <<< i) = some (sgrOfBit i) := by
  decide

set_option maxHeartbeats 1000000 in
/-- The ascending code list of a single-bit style is that style's code
alone. -/
theorem sgrList_pow : ∀ i < 39, sgrList (1 <<< i) = [sgrOfBit i] := by
  decide

set_option maxHeartbeats 1000000 in
/-- A value the switch answers is one of the 39 single-bit styles. -/
theorem codeSingle_inv (s : Nat) (c : String) (h : codeSingle s = some c) :
    ∃ i, s = 1 <<< i ∧ i < 39 := by
  unfold codeSingle at h
  by_cases h0 : s = 1 <<< 0
  · exact ⟨0, h0, by norm_num⟩
  rw [if_neg h0] at h
  by_cases h1 : s = 1 <<< 1
  · exact ⟨1, h1, by norm_num⟩
  rw [if_neg h1] at h
  by_cases h2 : s = 1 <<< 2
  · exact ⟨2, h2, by norm_num⟩
  rw [if_neg h2] at h
  by_cases h3 : s = 1 <<< 3
  · exact ⟨3, h3, by norm_num⟩
  rw [if_neg h3] at h
  by_cases h4 : s = 1 <<< 4
  · exact ⟨4, h4, by norm_num⟩
  rw [if_neg h4] at h
  by_cases h5 : s = 1 <<< 5
  · exact ⟨5, h5, by norm_num⟩
  rw [if_neg h5] at h
  by_cases h6 : s = 1 <<< 6
  · exact ⟨6, h6, by norm_num⟩
  rw [if_neg h6] at h
  by_cases h7 : s = 1 <<< 7
  · exact ⟨7, h7, by norm_num⟩
  rw [if_neg h7] at h
  by_cases h8 : s = 1 <<< 8
  · exact ⟨8, h8, by norm_num⟩
  rw [if_neg h8] at h
  by_cases h9 : s = 1 <<< 9
  · exact ⟨9, h9, by norm_num⟩
  rw [if_neg h9] at h
  by_cases h10 : s = 1 <<< 10
  · exact ⟨10, h10, by norm_num⟩
  rw [if_neg h10] at h
  by_cases h11 : s = 1 <<< 11
  · exact ⟨11, h11, by norm_num⟩
  rw [if_neg h11] at h
  by_cases h12 : s = 1 <<< 12
  · exact ⟨12, h12, by norm_num⟩
  rw [if_neg h12] at h
  by_cases h13 : s = 1 <<< 13
  · exact ⟨13, h13, by norm_num⟩
  rw [if_neg h13] at h
  by_cases h14 : s = 1 <<< 14
  · exact ⟨14, h14, by norm_num⟩
  rw [if_neg h14] at h
  by_cases h15 : s = 1 <<< 15
  · exact ⟨15, h15, by norm_num⟩
  rw [if_neg h15] at h
  by_cases h16 : s = 1 <<< 16
  · exact ⟨16, h16, by norm_num⟩
  rw [if_neg h16] at h
  by_cases h17 : s = 1 <<< 17
  · exact ⟨17, h17, by norm_num⟩
  rw [if_neg h17] at h
  by_cases h18 : s = 1 <<< 18
  · exact ⟨18, h18, by norm_num⟩
  rw [if_neg h18] at h
  by_cases h19 : s = 1 <<< 19
  · exact ⟨19, h19, by norm_num⟩
  rw [if_neg h19] at h
  by_cases h20 : s = 1 <<< 20
  · exact ⟨20, h20, by norm_num⟩
  rw [if_neg h20] at h
  by_cases h21 : s = 1 <<< 21
  · exact ⟨21, h21, by norm_num⟩
  rw [if_neg h21] at h
  by_cases h22 : s = 1 <<< 22
  · exact ⟨22, h22, by norm_num⟩
  rw [if_neg h22] at h
  by_cases h23 : s = 1 <<< 23
  · exact ⟨23, h23, by norm_num⟩
  rw [if_neg h23] at h
  by_cases h24 : s = 1 <<< 24
  · exact ⟨24, h24, by norm_num⟩
  rw [if_neg h24] at h
  by_cases h25 : s = 1 <<< 25
  · exact ⟨25, h25, by norm_num⟩
  rw [if_neg h25] at h
  by_cases h26 : s = 1 <<< 26
  · exact ⟨26, h26, by norm_num⟩
  rw [if_neg h26] at h
  by_cases h27 : s = 1 <<< 27
  · exact ⟨27, h27, by norm_num⟩
  rw [if_neg h27] at h
  by_cases h28 : s = 1 <<< 28
  · exact ⟨28, h28, by norm_num⟩
  rw [if_neg h28] at h
  by_cases h29 : s = 1 <<< 29
  · exact ⟨29, h29, by norm_num⟩
  rw [if_neg h29] at h
  by_cases h30 : s = 1 <<< 30
  · exact ⟨30, h30, by norm_num⟩
  rw [if_neg h30] at h
  by_cases h31 : s = 1 <<< 31
  · exact ⟨31, h31, by norm_num⟩
  rw [if_neg h31] at h
  by_cases h32 : s = 1 <<< 32
  · exact ⟨32, h32, by norm_num⟩
  rw [if_neg h32] at h
  by_cases h33 : s = 1 <<< 33
  · exact ⟨33, h33, by norm_num⟩
  rw [if_neg h33] at h
  by_cases h34 : s = 1 <<< 34
  · exact ⟨34, h34, by norm_num⟩
  rw [if_neg h34] at h
  by_cases h35 : s = 1 <<< 35
  · exact ⟨35, h35, by norm_num⟩
  rw [if_neg h35] at h
  by_cases h36 : s = 1 <<< 36
  · exact ⟨36, h36, by norm_num⟩
  rw [if_neg h36] at h
  by_cases h37 : s = 1 <<< 37
  · exact ⟨37, h37, by norm_num⟩
  rw [if_neg h37] at h
  by_cases h38 : s = 1 <<< 38
  · exact ⟨38, h38, by norm_num⟩
  rw [if_neg h38] at h
  exact absurd h (by simp)

/-- One loop iteration on a healthy accumulator appends the bit's code when
the bit is set. -/
theorem collectStep_ok_bit (s i : Nat) (hi : i < 39) (cs : List String) :
    collectStep s (Except.ok cs) i
      = Except.ok (cs ++ if s &&& (1 <<< i) ≠ 0 then [sgrOfBit i] else []) := by
  by_cases hbit : s &&& (1 <<< i) ≠ 0
  · simp [collectStep, hbit, codeSingle_pow i hi]
  · simp [collectStep, hbit]

/-- The combination loop collects exactly the codes of the set bits, in
ascending bit order, and never fails. -/
theorem collectCodes_ok (s : Nat) : collectCodes s = Except.ok (sgrList s) := by
  have main : ∀ (l : List Nat) (acc : List String), (∀ i ∈ l, i < 39) →
      l.foldl (collectStep s) (.ok acc)
      = Except.ok
          (acc ++ l.filterMap
            (fun i => if s &&& (1 <<< i) ≠ 0 then some (sgrOfBit i) else none)) := by
    intro l
    induction l with
    | nil => intro acc _; simp
    | cons i t ih =>
      intro acc hl
      rw [List.foldl_cons, collectStep_ok_bit s i (hl i (List.mem_cons_self i t)) acc,
        ih _ (fun j hj => hl j (List.mem_cons_of_mem i hj))]
      by_cases hbit : s &&& (1 <<< i) ≠ 0 <;>
        simp [hbit, List.filterMap_cons, List.append_assoc]
  unfold collectCodes sgrList
  exact main (List.range 39) [] (fun i hi => List.mem_range.mp hi)

/-- C10: `Style.Code` returns an error exactly for the style value 0 and any
value at least `maxStyle`; for every value strictly between, it returns —
with no error — the SGR codes of the set bits joined by `;` in ascending bit
order (`Bold`, bit 0, first; `BrightWhiteBackground`, bit 38, last),
depending only on the value, not on how the caller combined the bits. -/
theorem C10_style_code (s : Nat) :
    ((s = 0 ∨ maxStyle ≤ s) → ∃ e, Code s = Except.error e) ∧
    (0 < s → s < maxStyle →
      Code s = Except.ok (String.intercalate ";" (sgrList s))) := by
  constructor
  · intro h
    refine ⟨"invalid style: Style(" ++ toString s ++ ")", ?_⟩
    unfold Code
    rw [if_pos h.symm]
  · intro h0 hlt
    unfold Code
    rw [if_neg (by
      simp only [not_or]
      exact ⟨not_le.mpr hlt, Nat.pos_iff_ne_zero.mp h0⟩)]
    rcases hcs : codeSingle s with _ | c
    · simp only [hcs, collectCodes_ok s]
    · simp only [hcs]
      obtain ⟨i, hsi, hi39⟩ := codeSingle_inv s c hcs
      subst hsi
      rw [codeSingle_pow i hi39] at hcs
      rw [sgrList_pow i hi39]
      injection hcs with hc
      rw [← hc]
      rfl

/-- Witness: `Bold ||| Dim = 3` is accepted with code `1;2`, and the zero
style is rejected. -/
theorem C10_style_code_witness :
    Code 3 = Except.ok (String.intercalate ";" (sgrList 3)) ∧
    ∃ e, Code 0 = Except.error e :=
  ⟨(C10_style_code 3).2 (by norm_num) (by decide),
   (C10_style_code 0).1 (Or.inl rfl)⟩

end Hue

namespace Tabwriter

/-- Witness for the debug-marker theorem: a two-cell line (one column)
emits exactly one bar. -/
theorem C2_debug_markers_witness :
    (writeCells (mkCfg 1 0 0 46 false false true false false) [2] [97] 0 0
        [⟨1, 1, true⟩, ⟨0, 0, false⟩]).2.count 124
      = cols [⟨1, 1, true⟩, ⟨0, 0, false⟩] :=
  (C2_debug_markers (mkCfg 1 0 0 46 false false true false false) rfl
    (by decide) (fun _ => rfl) [2] [97] (by decide)
    [⟨1, 1, true⟩, ⟨0, 0, false⟩] 0 initState rfl rfl).1

/-- Witness for the elision theorem: a single empty vtab cell gives column
width 0 with the discard flag and the padded minimum without it. -/
theorem C3_elision_witness :
    colWidth (mkCfg 4 0 0 46 false false false false true) [⟨0, 0, false⟩] = 0 ∧
    colWidth (mkCfg 4 0 0 46 false false false false false) [⟨0, 0, false⟩]
      = max 4 0 :=
  ⟨((C3_elision (mkCfg 4 0 0 46 false false false false true) [⟨0, 0, false⟩]
      (by decide)).1 (by decide)).1 rfl,
   ((C3_elision (mkCfg 4 0 0 46 false false false false false) [⟨0, 0, false⟩]
      (by decide)).1 (by decide)).2 rfl⟩

/-- Witness for the rune-width theorem: terminating the two-byte plain cell
`ab` records size 2 and width 2. -/
theorem C5_rune_width_witness :
    (writeBytes (mkCfg 8 0 1 46 false false false false false)
        ([97, 98] ++ [9]) initState).curLine
      = [⟨2, 2, true⟩] :=
  (C5_rune_width (mkCfg 8 0 1 46 false false false false false) initState
    [97, 98] rfl rfl (by decide) (by decide)).1

/-- Witness for the opaque-span theorem: a filter span containing a tab
becomes three content bytes of one unterminated cell. -/
theorem C6_opaque_spans_witness :
    writeBytes (mkCfg 1 0 0 46 true false false false false)
        (255 :: ([9] ++ [255])) initState
      = ⟨[255, 9, 255], 3, 3, 0, Span.none, [], [], [], 0, false, []⟩ :=
  (C6_opaque_spans (mkCfg 1 0 0 46 true false false false false) initState
    [9] [12] rfl rfl (by decide) (by decide) rfl).1

/-- Witness for the sink-failure theorem: flushing the single buffered byte
`a` into an always-failing sink reports failure after exactly one attempted
write and discards the buffer. -/
theorem C7_sink_failure_witness :
    (flush (initConfig 8 0 1 46 false false false false false badSink)
        (writeBytes (initConfig 8 0 1 46 false false false false false badSink)
          [97] initState)).failed = true ∧
    (flush (initConfig 8 0 1 46 false false false false false badSink)
        (writeBytes (initConfig 8 0 1 46 false false false false false badSink)
          [97] initState)).nw
      = (writeBytes (initConfig 8 0 1 46 false false false false false badSink)
          [97] initState).nw + 1 ∧
    (flush (initConfig 8 0 1 46 false false false false false badSink)
        (writeBytes (initConfig 8 0 1 46 false false false false false badSink)
          [97] initState)).buf = [] := by
  have h := C7_sink_failure
    (initConfig 8 0 1 46 false false false false false badSink)
    (writeBytes (initConfig 8 0 1 46 false false false false false badSink)
      [97] initState) rfl rfl (by decide)
  exact ⟨h.1.1, h.1.2.1, h.1.2.2.2.1⟩

end Tabwriter


namespace Tabwriter

/-- The empty byte sequence is decode-complete. -/
theorem decodeComplete_nil : decodeComplete [] := by
  intro m
  simp [runeCount, runeCountF]

/-- Counting the pending width empties the pending bytes. -/
theorem pend_updateWidth (s : State) : (updateWidth s).pend = [] := by
  simp [updateWidth, State.pend]

/-- Appending a content byte appends it to the pending bytes. -/
theorem pend_appendByte (s : State) (ch : Nat) (h : s.pos ≤ s.buf.length) :
    (appendByte s ch).pend = s.pend ++ [ch] := by
  simp [appendByte, State.pend, List.drop_append_of_le_length h]

/-- The width projection of a line with one cell appended. -/
theorem lineW_append (l : List Cell) (c : Cell) :
    lineW (l ++ [c]) = lineW l ++ [(c.width, c.htab)] := by
  simp [lineW]

/-- The block shape is a function of the lines' width projections. -/
theorem shapeOf_lines (s : State) :
    shapeOf s = (s.lines.map lineW).map (fun w => (w.length, w.dropLast)) := by
  unfold shapeOf
  rw [List.map_map]
  have : (fun (l : List Cell) =>
        (l.length, l.dropLast.map (fun c => (c.width, c.htab))))
      = (fun l => ((lineW l).length, (lineW l).dropLast)) := by
    funext l
    simp [lineW, List.map_dropLast]
  rw [this]
  rfl

/-- States with equal width projections have equal block shapes. -/
theorem shapeOf_eq (s1 s2 : State)
    (dl : s1.doneLines.map lineW = s2.doneLines.map lineW)
    (cl : lineW s1.curLine = lineW s2.curLine) : shapeOf s1 = shapeOf s2 := by
  rw [shapeOf_lines, shapeOf_lines]
  unfold State.lines
  rw [List.map_append, List.map_append, dl]
  simp [cl]

/-- The cumulated width including pending bytes agrees across the
relation. -/
theorem width_sync (s1 s2 : State) (p0 : List Nat) (hc : decodeComplete p0)
    (hpend : s2.pend = p0 ++ s1.pend)
    (hw : s1.cellWidth = s2.cellWidth + runeCount p0) :
    s1.cellWidth + runeCount s1.pend = s2.cellWidth + runeCount s2.pend := by
  rw [hpend, hc s1.pend, hw]
  omega

/-- Counting the pending width preserves the relation and synchronises the
cell widths exactly. -/
theorem updateWidth_rel (s1 s2 : State) (h : Rel s1 s2) :
    Rel (updateWidth s1) (updateWidth s2) ∧
    (updateWidth s1).cellWidth = (updateWidth s2).cellWidth := by
  obtain ⟨f1, f2, sp, sh, dl, cl, pos1, pos2, p0, hc, hpend, hw, hsp0⟩ := h
  have hws := width_sync s1 s2 p0 hc hpend hw
  have hwid : (updateWidth s1).cellWidth = (updateWidth s2).cellWidth := by
    simp [updateWidth, hws]
  refine ⟨⟨f1, f2, sp, sh, dl, cl, ?_, ?_, [], decodeComplete_nil, ?_, ?_,
    fun _ => rfl⟩, hwid⟩
  · simp [updateWidth]
  · simp [updateWidth]
  · rw [pend_updateWidth, pend_updateWidth]
    rfl
  · rw [hwid]
    simp [runeCount, runeCountF]

/-- Appending a content byte preserves the relation. -/
theorem appendByte_rel (ch : Nat) (s1 s2 : State) (h : Rel s1 s2) :
    Rel (appendByte s1 ch) (appendByte s2 ch) := by
  obtain ⟨f1, f2, sp, sh, dl, cl, pos1, pos2, p0, hc, hpend, hw, hsp0⟩ := h
  refine ⟨f1, f2, sp, sh, dl, cl, ?_, ?_, p0, hc, ?_, hw, hsp0⟩
  · simp [appendByte]
    omega
  · simp [appendByte]
    omega
  · rw [pend_appendByte s1 ch pos1, pend_appendByte s2 ch pos2, hpend,
      List.append_assoc]

/-- Terminating the current cell preserves the relation when the widths are
synchronised and no pending bytes remain. -/
theorem terminateCell_rel (b : Bool) (t1 t2 : State) (h : Rel t1 t2)
    (hw : t1.cellWidth = t2.cellWidth) (hp1 : t1.pend = []) (hp2 : t2.pend = []) :
    Rel (terminateCell b t1) (terminateCell b t2) := by
  obtain ⟨f1, f2, sp, sh, dl, cl, pos1, pos2, _⟩ := h
  refine ⟨f1, f2, sp, sh, dl, ?_, pos1, pos2, [], decodeComplete_nil, ?_, ?_,
    fun _ => rfl⟩
  · show lineW (t1.curLine ++ [⟨t1.cellSize, t1.cellWidth, b⟩])
      = lineW (t2.curLine ++ [⟨t2.cellSize, t2.cellWidth, b⟩])
    rw [lineW_append, lineW_append, cl, hw]
  · show t2.pend = [] ++ t1.pend
    rw [hp1, hp2]
    rfl
  · show (0 : Nat) = 0 + runeCount []
    simp [runeCount, runeCountF]

/-- Completing the current line preserves the relation. -/
theorem addLine_rel (s1 s2 : State) (h : Rel s1 s2) :
    Rel (addLine s1) (addLine s2) := by
  obtain ⟨f1, f2, sp, sh, dl, cl, pos1, pos2, p0, hc, hpend, hw, hsp0⟩ := h
  refine ⟨f1, f2, sp, sh, ?_, rfl, pos1, pos2, p0, hc, hpend, hw, hsp0⟩
  show (s1.doneLines ++ [s1.curLine]).map lineW
    = (s2.doneLines ++ [s2.curLine]).map lineW
  rw [List.map_append, List.map_append, dl]
  simp [cl]

/-- A flush from a healthy state resets the buffered state and records the
flushed block's shape, whatever the sink wrote. -/
theorem flush_fields (cfg : Config) (hsink : ∀ n, cfg.sinkOk n = true)
    (u : State) (hf : u.failed = false) :
    (flush cfg u).failed = false ∧ (flush cfg u).span = Span.none ∧
    (flush cfg u).buf = [] ∧ (flush cfg u).pos = 0 ∧
    (flush cfg u).cellSize = 0 ∧ (flush cfg u).cellWidth = 0 ∧
    (flush cfg u).doneLines = [] ∧ (flush cfg u).curLine = [] ∧
    (flush cfg u).shapes = u.shapes ++ [shapeOf (flushTerm u)] := by
  have hts : (flushTerm u).shapes = u.shapes := by
    unfold flushTerm closeSpan
    split
    · split <;> rfl
    · rfl
  have hshape : (flushPrep u).shapes = u.shapes ++ [shapeOf (flushTerm u)] := by
    unfold flushPrep
    simp [hts]
  simp only [flush, hf, Bool.false_eq_true, if_false]
  split
  · simp [resetBuf, hshape, flushPrep_failed, hf]
  · simp [resetBuf, write0, hshape, flushPrep_failed, hf, hsink]

/-- A flush of two related states with empty current cells preserves the
relation. -/
theorem flush_rel (cfg : Config) (hsink : ∀ n, cfg.sinkOk n = true)
    (s1 s2 : State) (h : Rel s1 s2) (hz1 : s1.cellSize = 0)
    (hz2 : s2.cellSize = 0) : Rel (flush cfg s1) (flush cfg s2) := by
  obtain ⟨f1, f2, sp, sh, dl, cl, pos1, pos2, _⟩ := h
  obtain ⟨k1f, k1sp, k1b, k1p, k1cs, k1cw, k1d, k1c, k1sh⟩ :=
    flush_fields cfg hsink s1 f1
  obtain ⟨k2f, k2sp, k2b, k2p, k2cs, k2cw, k2d, k2c, k2sh⟩ :=
    flush_fields cfg hsink s2 f2
  have hzt1 : flushTerm s1 = s1 := by simp [flushTerm, hz1]
  have hzt2 : flushTerm s2 = s2 := by simp [flushTerm, hz2]
  refine ⟨k1f, k2f, by rw [k1sp, k2sp], ?_, by rw [k1d, k2d],
    by rw [k1c, k2c], by simp [k1p], by simp [k2p], [], decodeComplete_nil,
    ?_, ?_, fun _ => rfl⟩
  · rw [k1sh, k2sh, hzt1, hzt2, sh, shapeOf_eq s1 s2 dl cl]
  · simp [State.pend, k1b, k2b, k1p, k2p]
  · rw [k1cw, k2cw]
    simp [runeCount, runeCountF]

/-- A sink write with a healthy sink preserves the relation. -/
theorem write0_rel (cfg : Config) (hsink : ∀ n, cfg.sinkOk n = true)
    (bs : List Nat) (s1 s2 : State) (h : Rel s1 s2) :
    Rel (write0 cfg bs s1) (write0 cfg bs s2) := by
  obtain ⟨f1, f2, sp, sh, dl, cl, pos1, pos2, p0, hc, hpend, hw, hsp0⟩ := h
  have e1 : write0 cfg bs s1
      = { s1 with output := s1.output ++ bs, nw := s1.nw + 1 } := by
    simp [write0, f1, hsink]
  have e2 : write0 cfg bs s2
      = { s2 with output := s2.output ++ bs, nw := s2.nw + 1 } := by
    simp [write0, f2, hsink]
  rw [e1, e2]
  exact ⟨f1, f2, sp, sh, dl, cl, pos1, pos2, p0, hc, hpend, hw, hsp0⟩

end Tabwriter

namespace Tabwriter

/-- Entering a span preserves the relation when widths and pending bytes
agree exactly. -/
theorem setSpan_rel (spn : Span) (t1 t2 : State) (h : Rel t1 t2)
    (hw : t1.cellWidth = t2.cellWidth) (hp : t2.pend = t1.pend) :
    Rel { t1 with span := spn } { t2 with span := spn } := by
  obtain ⟨f1, f2, _, sh, dl, cl, pos1, pos2, _⟩ := h
  refine ⟨f1, f2, rfl, sh, dl, cl, pos1, pos2, [], decodeComplete_nil, ?_, ?_,
    fun _ => rfl⟩
  · show t2.pend = [] ++ t1.pend
    rw [hp]
    rfl
  · show t1.cellWidth = t2.cellWidth + runeCount []
    rw [hw]
    simp [runeCount, runeCountF]

/-- Closing a span (skipping its bytes for width purposes) preserves the
relation when the widths agree exactly. -/
theorem closePos_rel (spn : Span) (t1 t2 : State) (h : Rel t1 t2)
    (hw : t1.cellWidth = t2.cellWidth) :
    Rel { t1 with pos := t1.buf.length, span := spn }
        { t2 with pos := t2.buf.length, span := spn } := by
  obtain ⟨f1, f2, _, sh, dl, cl, _, _, _⟩ := h
  refine ⟨f1, f2, rfl, sh, dl, cl, Nat.le_refl _, Nat.le_refl _, [],
    decodeComplete_nil, ?_, ?_, fun _ => rfl⟩
  · show t2.buf.drop t2.buf.length = [] ++ t1.buf.drop t1.buf.length
    simp
  · show t1.cellWidth = t2.cellWidth + runeCount []
    rw [hw]
    simp [runeCount, runeCountF]

/-- Closing an entity span (adding one width unit) preserves the relation
when the widths agree exactly. -/
theorem closePosW_rel (t1 t2 : State) (h : Rel t1 t2)
    (hw : t1.cellWidth = t2.cellWidth) :
    Rel { t1 with
            cellWidth := t1.cellWidth + 1, pos := t1.buf.length,
            span := Span.none }
        { t2 with
            cellWidth := t2.cellWidth + 1, pos := t2.buf.length,
            span := Span.none } := by
  obtain ⟨f1, f2, _, sh, dl, cl, _, _, _⟩ := h
  refine ⟨f1, f2, rfl, sh, dl, cl, Nat.le_refl _, Nat.le_refl _, [],
    decodeComplete_nil, ?_, ?_, fun _ => rfl⟩
  · show t2.buf.drop t2.buf.length = [] ++ t1.buf.drop t1.buf.length
    simp
  · show t1.cellWidth + 1 = t2.cellWidth + 1 + runeCount []
    rw [hw]
    simp [runeCount, runeCountF]

/-- One step outside any span preserves the relation. -/
theorem stepOutside_rel (cfg : Config) (hsink : ∀ n, cfg.sinkOk n = true)
    (ch : Nat) (s1 s2 : State) (h : Rel s1 s2) :
    Rel (stepOutside cfg s1 ch) (stepOutside cfg s2 ch) := by
  obtain ⟨hrel, hwid⟩ := updateWidth_rel s1 s2 h
  unfold stepOutside
  by_cases h9 : ch = 9 ∨ ch = 11
  · rw [if_pos h9, if_pos h9]
    exact terminateCell_rel _ _ _ hrel hwid (pend_updateWidth s1)
      (pend_updateWidth s2)
  rw [if_neg h9, if_neg h9]
  by_cases h10 : ch = 10 ∨ ch = 12
  · rw [if_pos h10, if_pos h10]
    have hterm : Rel (terminateCell false (updateWidth s1))
        (terminateCell false (updateWidth s2)) :=
      terminateCell_rel false _ _ hrel hwid (pend_updateWidth s1)
        (pend_updateWidth s2)
    have hadd := addLine_rel _ _ hterm
    have hnc : (terminateCell false (updateWidth s1)).curLine.length
        = (terminateCell false (updateWidth s2)).curLine.length := by
      have := congrArg List.length hterm.cl
      simpa [lineW] using this
    have hflush := flush_rel cfg hsink _ _ hadd rfl rfl
    simp only [hnc]
    by_cases hcond : ch = 12 ∨ (terminateCell false (updateWidth s2)).curLine.length = 1
    · rw [if_pos hcond, if_pos hcond]
      by_cases hdbg : ch = 12 ∧ cfg.debug
      · rw [if_pos hdbg, if_pos hdbg]
        exact write0_rel cfg hsink hbar _ _ hflush
      · rw [if_neg hdbg, if_neg hdbg]
        exact hflush
    · rw [if_neg hcond, if_neg hcond]
      exact hadd
  rw [if_neg h10, if_neg h10]
  by_cases hffb : ch = 255
  · rw [if_pos hffb, if_pos hffb]
    by_cases hst : cfg.stripEscape = true
    · simp only [hst, if_true]
      exact setSpan_rel Span.filter _ _ hrel (by rw [hwid])
        (by rw [pend_updateWidth, pend_updateWidth])
    · simp only [hst, Bool.false_eq_true, if_false]
      have hap := appendByte_rel ch _ _ hrel
      refine setSpan_rel Span.filter _ _ hap hwid ?_
      rw [pend_appendByte _ ch (by simp [updateWidth]),
        pend_appendByte _ ch (by simp [updateWidth]),
        pend_updateWidth, pend_updateWidth]
  rw [if_neg hffb, if_neg hffb]
  by_cases hesc : ch = 27
  · rw [if_pos hesc, if_pos hesc]
    have hap := appendByte_rel ch _ _ hrel
    refine setSpan_rel Span.ansiStart _ _ hap hwid ?_
    rw [pend_appendByte _ ch (by simp [updateWidth]),
      pend_appendByte _ ch (by simp [updateWidth]),
      pend_updateWidth, pend_updateWidth]
  rw [if_neg hesc, if_neg hesc]
  by_cases hhtml : (ch = 60 ∨ ch = 38) ∧ cfg.filterHTML
  · rw [if_pos hhtml, if_pos hhtml]
    have hap := appendByte_rel ch _ _ hrel
    refine setSpan_rel _ _ _ hap hwid ?_
    rw [pend_appendByte _ ch (by simp [updateWidth]),
      pend_appendByte _ ch (by simp [updateWidth]),
      pend_updateWidth, pend_updateWidth]
  rw [if_neg hhtml, if_neg hhtml]
  exact appendByte_rel ch s1 s2 h

/-- One step of the writer preserves the relation. -/
theorem step_rel (cfg : Config) (hsink : ∀ n, cfg.sinkOk n = true)
    (ch : Nat) (s1 s2 : State) (h : Rel s1 s2) :
    Rel (step cfg s1 ch) (step cfg s2 ch) := by
  have hcopy := h
  obtain ⟨f1, f2, sp, sh, dl, cl, pos1, pos2, p0, hc, hpend, hw, hsp0⟩ := h
  cases hs2 : s2.span
  case none =>
    rw [hs2] at sp
    have e1 : step cfg s1 ch = stepOutside cfg s1 ch := by simp [step, f1, sp]
    have e2 : step cfg s2 ch = stepOutside cfg s2 ch := by simp [step, f2, hs2]
    rw [e1, e2]
    exact stepOutside_rel cfg hsink ch s1 s2 hcopy
  case filter =>
    rw [hs2] at sp
    have hp0 : p0 = [] := hsp0 (by rw [sp]; simp)
    subst hp0
    have hww : s1.cellWidth = s2.cellWidth := by
      simpa [runeCount, runeCountF] using hw
    have hpe : s2.pend = s1.pend := by simpa using hpend
    have e1 : step cfg s1 ch
        = (if ch = 255 then
            (let t := if cfg.stripEscape then s1 else appendByte s1 ch
             { t with pos := t.buf.length, span := Span.none })
           else appendByte s1 ch) := by
      simp [step, f1, sp]
    have e2 : step cfg s2 ch
        = (if ch = 255 then
            (let t := if cfg.stripEscape then s2 else appendByte s2 ch
             { t with pos := t.buf.length, span := Span.none })
           else appendByte s2 ch) := by
      simp [step, f2, hs2]
    rw [e1, e2]
    by_cases hch : ch = 255
    · rw [if_pos hch, if_pos hch]
      by_cases hst : cfg.stripEscape = true
      · simp only [hst, if_true]
        exact closePos_rel Span.none s1 s2 hcopy hww
      · simp only [hst, Bool.false_eq_true, if_false]
        exact closePos_rel Span.none _ _ (appendByte_rel ch _ _ hcopy) hww
    · rw [if_neg hch, if_neg hch]
      exact appendByte_rel ch s1 s2 hcopy
  case tag =>
    rw [hs2] at sp
    have hp0 : p0 = [] := hsp0 (by rw [sp]; simp)
    subst hp0
    have hww : s1.cellWidth = s2.cellWidth := by
      simpa [runeCount, runeCountF] using hw
    have e1 : step cfg s1 ch
        = (if ch = 62 then
            { appendByte s1 ch with
              pos := (appendByte s1 ch).buf.length, span := Span.none }
           else appendByte s1 ch) := by
      simp [step, f1, sp]
    have e2 : step cfg s2 ch
        = (if ch = 62 then
            { appendByte s2 ch with
              pos := (appendByte s2 ch).buf.length, span := Span.none }
           else appendByte s2 ch) := by
      simp [step, f2, hs2]
    rw [e1, e2]
    by_cases hch : ch = 62
    · rw [if_pos hch, if_pos hch]
      exact closePos_rel Span.none _ _ (appendByte_rel ch _ _ hcopy) hww
    · rw [if_neg hch, if_neg hch]
      exact appendByte_rel ch s1 s2 hcopy
  case entity =>
    rw [hs2] at sp
    have hp0 : p0 = [] := hsp0 (by rw [sp]; simp)
    subst hp0
    have hww : s1.cellWidth = s2.cellWidth := by
      simpa [runeCount, runeCountF] using hw
    have e1 : step cfg s1 ch
        = (if ch = 59 then
            { appendByte s1 ch with
              cellWidth := (appendByte s1 ch).cellWidth + 1,
              pos := (appendByte s1 ch).buf.length, span := Span.none }
           else appendByte s1 ch) := by
      simp [step, f1, sp]
    have e2 : step cfg s2 ch
        = (if ch = 59 then
            { appendByte s2 ch with
              cellWidth := (appendByte s2 ch).cellWidth + 1,
              pos := (appendByte s2 ch).buf.length, span := Span.none }
           else appendByte s2 ch) := by
      simp [step, f2, hs2]
    rw [e1, e2]
    by_cases hch : ch = 59
    · rw [if_pos hch, if_pos hch]
      exact closePosW_rel _ _ (appendByte_rel ch _ _ hcopy) hww
    · rw [if_neg hch, if_neg hch]
      exact appendByte_rel ch s1 s2 hcopy
  case ansiStart =>
    rw [hs2] at sp
    have hp0 : p0 = [] := hsp0 (by rw [sp]; simp)
    subst hp0
    have hww : s1.cellWidth = s2.cellWidth := by
      simpa [runeCount, runeCountF] using hw
    have hpe : s2.pend = s1.pend := by simpa using hpend
    have e1 : step cfg s1 ch
        = (if ch = 91 then { appendByte s1 ch with span := Span.ansiBody }
           else stepOutside cfg { s1 with span := Span.none } ch) := by
      simp [step, f1, sp]
    have e2 : step cfg s2 ch
        = (if ch = 91 then { appendByte s2 ch with span := Span.ansiBody }
           else stepOutside cfg { s2 with span := Span.none } ch) := by
      simp [step, f2, hs2]
    rw [e1, e2]
    by_cases hch : ch = 91
    · rw [if_pos hch, if_pos hch]
      refine setSpan_rel Span.ansiBody _ _ (appendByte_rel ch _ _ hcopy) hww ?_
      rw [pend_appendByte _ ch pos1, pend_appendByte _ ch pos2, hpe]
    · rw [if_neg hch, if_neg hch]
      refine stepOutside_rel cfg hsink ch _ _ ?_
      exact ⟨f1, f2, rfl, sh, dl, cl, pos1, pos2, [], decodeComplete_nil,
        by simpa using hpend, hw, fun _ => rfl⟩
  case ansiBody =>
    rw [hs2] at sp
    have hp0 : p0 = [] := hsp0 (by rw [sp]; simp)
    subst hp0
    have hww : s1.cellWidth = s2.cellWidth := by
      simpa [runeCount, runeCountF] using hw
    have e1 : step cfg s1 ch
        = (if 64 ≤ ch ∧ ch ≤ 126 then
            { appendByte s1 ch with
              pos := (appendByte s1 ch).buf.length, span := Span.none }
           else appendByte s1 ch) := by
      simp [step, f1, sp]
    have e2 : step cfg s2 ch
        = (if 64 ≤ ch ∧ ch ≤ 126 then
            { appendByte s2 ch with
              pos := (appendByte s2 ch).buf.length, span := Span.none }
           else appendByte s2 ch) := by
      simp [step, f2, hs2]
    rw [e1, e2]
    by_cases hch : 64 ≤ ch ∧ ch ≤ 126
    · rw [if_pos hch, if_pos hch]
      exact closePos_rel Span.none _ _ (appendByte_rel ch _ _ hcopy) hww
    · rw [if_neg hch, if_neg hch]
      exact appendByte_rel ch s1 s2 hcopy

/-- The relation is preserved by writing any byte sequence to both sides. -/
theorem writeBytes_rel (cfg : Config) (hsink : ∀ n, cfg.sinkOk n = true)
    (ys : List Nat) :
    ∀ (s1 s2 : State), Rel s1 s2 →
      Rel (writeBytes cfg ys s1) (writeBytes cfg ys s2) := by
  induction ys with
  | nil => intro s1 s2 h; exact h
  | cons b t ih =>
    intro s1 s2 h
    exact ih (step cfg s1 b) (step cfg s2 b) (step_rel cfg hsink b s1 s2 h)

end Tabwriter

namespace Tabwriter

/-- Inside an ANSI control sequence body, every non-final byte is content:
it is appended to the buffer and nothing else changes. -/
theorem ansiBodyContent (cfg : Config) (inner : List Nat) :
    ∀ (s : State), s.failed = false → s.span = Span.ansiBody →
      (∀ b ∈ inner, ¬(64 ≤ b ∧ b ≤ 126)) →
      writeBytes cfg inner s
        = { s with buf := s.buf ++ inner, cellSize := s.cellSize + inner.length } := by
  induction inner with
  | nil => intro s _ _ _; simp [writeBytes]
  | cons b t ih =>
    intro s hf hsp hb
    have hstep : step cfg s b = appendByte s b := by
      simp [step, hf, hsp, hb b (List.mem_cons_self b t)]
    show writeBytes cfg t (step cfg s b) = _
    rw [hstep, ih (appendByte s b) hf hsp (fun d hd => hb d (List.mem_cons_of_mem b hd))]
    simp [appendByte, List.append_assoc]
    omega

/-- A complete ANSI body (non-final bytes then a final byte) appends its
bytes as zero-width content and leaves the span state. -/
theorem ansiSpanContent (cfg : Config) (mid : List Nat) (fin : Nat)
    (hmid : ∀ b ∈ mid, ¬(64 ≤ b ∧ b ≤ 126)) (hfin : 64 ≤ fin ∧ fin ≤ 126) :
    ∀ (s : State), s.failed = false → s.span = Span.ansiBody →
      writeBytes cfg (mid ++ [fin]) s
        = { s with
            buf := s.buf ++ (mid ++ [fin]),
            cellSize := s.cellSize + (mid.length + 1),
            pos := (s.buf ++ (mid ++ [fin])).length, span := Span.none } := by
  intro s hf hsp
  rw [writeBytes_append, ansiBodyContent cfg mid s hf hsp hmid]
  have e3 : step cfg
      ({ s with buf := s.buf ++ mid, cellSize := s.cellSize + mid.length }) fin
      = { s with
          buf := (s.buf ++ mid) ++ [fin],
          cellSize := (s.cellSize + mid.length) + 1,
          pos := ((s.buf ++ mid) ++ [fin]).length, span := Span.none } := by
    simp [step, hf, hsp, hfin, appendByte]
  rw [show writeBytes cfg [fin]
      ({ s with buf := s.buf ++ mid, cellSize := s.cellSize + mid.length })
      = step cfg
        ({ s with buf := s.buf ++ mid, cellSize := s.cellSize + mid.length }) fin
    from rfl]
  rw [e3]
  simp [List.append_assoc]
  omega

/-- Writing a complete control sequence from outside any span has exactly
the `escAppend` effect: the pending text's width is accounted, the
sequence's bytes are copied into the buffer verbatim, they contribute zero
width, and no cell or line structure changes. -/
theorem escSeq_write (cfg : Config) (s : State) (mid : List Nat) (fin : Nat)
    (hf : s.failed = false) (hsp : s.span = Span.none)
    (hmid : ∀ b ∈ mid, ¬(64 ≤ b ∧ b ≤ 126)) (hfin : 64 ≤ fin ∧ fin ≤ 126) :
    writeBytes cfg (escSeq mid fin) s = escAppend s (escSeq mid fin) := by
  have e1 : step cfg s 27
      = { appendByte (updateWidth s) 27 with span := Span.ansiStart } := by
    simp [step, hf, hsp, stepOutside]
  have e2 : step cfg ({ appendByte (updateWidth s) 27 with span := Span.ansiStart }) 91
      = { appendByte ({ appendByte (updateWidth s) 27 with span := Span.ansiStart }) 91 with
          span := Span.ansiBody } := by
    simp [step, hf, appendByte, updateWidth]
  show writeBytes cfg (mid ++ [fin]) (step cfg (step cfg s 27) 91) = _
  rw [e1, e2]
  rw [ansiSpanContent cfg mid fin hmid hfin
    ({ appendByte ({ appendByte (updateWidth s) 27 with span := Span.ansiStart }) 91 with
        span := Span.ansiBody }) (by simp [appendByte, updateWidth, hf]) rfl]
  simp [escAppend, escSeq, appendByte, updateWidth, List.append_assoc, hsp]
  omega

/-- The initial state is related to itself. -/
theorem initState_rel : Rel initState initState := by
  refine ⟨rfl, rfl, rfl, rfl, rfl, rfl, Nat.le_refl _, Nat.le_refl _, [],
    decodeComplete_nil, rfl, rfl, fun _ => rfl⟩

/-- The shape of the flush-terminated buffer with a nonempty trailing cell:
the trailing cell extends the last line but, being the line's final cell, it
contributes neither width nor terminator data to the shape. -/
theorem shapeOf_flushTerm_pos (s : State) (hpos : 0 < s.cellSize) :
    shapeOf (flushTerm s)
      = (s.doneLines.map lineW).map (fun w => (w.length, w.dropLast))
        ++ [(s.curLine.length + 1, lineW s.curLine)] := by
  have hft : flushTerm s = terminateCell false (closeSpan s) := by
    simp [flushTerm, hpos]
  rw [hft, shapeOf_lines]
  have hlines : (terminateCell false (closeSpan s)).lines
      = s.doneLines
        ++ [s.curLine ++ [⟨(closeSpan s).cellSize, (closeSpan s).cellWidth, false⟩]] := by
    unfold State.lines terminateCell closeSpan
    split <;> rfl
  rw [hlines, List.map_append, List.map_append]
  simp only [List.map_cons, List.map_nil, lineW_append]
  congr 1
  simp [lineW, List.dropLast_concat]

/-- Two related states flush to equal shape traces, provided their trailing
cells are simultaneously empty or simultaneously nonempty. -/
theorem flush_shapes_rel (cfg : Config) (hsink : ∀ n, cfg.sinkOk n = true)
    (s1 s2 : State) (h : Rel s1 s2)
    (H : 0 < s1.cellSize ↔ 0 < s2.cellSize) :
    (flush cfg s1).shapes = (flush cfg s2).shapes := by
  obtain ⟨_, _, _, _, _, _, _, _, k1sh⟩ := flush_fields cfg hsink s1 h.f1
  obtain ⟨_, _, _, _, _, _, _, _, k2sh⟩ := flush_fields cfg hsink s2 h.f2
  rw [k1sh, k2sh, h.sh]
  by_cases hp1 : 0 < s1.cellSize
  · have hp2 : 0 < s2.cellSize := H.mp hp1
    have hlen : s1.curLine.length = s2.curLine.length := by
      have := congrArg List.length h.cl
      simpa [lineW] using this
    rw [shapeOf_flushTerm_pos s1 hp1, shapeOf_flushTerm_pos s2 hp2, h.dl, h.cl,
      hlen]
  · have hp2 : ¬ 0 < s2.cellSize := fun hc => hp1 (H.mpr hc)
    have hz1 : flushTerm s1 = s1 := by simp [flushTerm, Nat.le_zero.mp (Nat.not_lt.mp hp1)]
    have hz2 : flushTerm s2 = s2 := by simp [flushTerm, Nat.le_zero.mp (Nat.not_lt.mp hp2)]
    rw [hz1, hz2, shapeOf_eq s1 s2 h.dl h.cl]

end Tabwriter

namespace Tabwriter

/-- C4: recognised terminal control sequences are zero width and layout
invariant.  Writing a complete ANSI control sequence (ESC `[`, non-final
bytes, a final byte in `@`..`~`) at a point where the writer is outside any
span has exactly the `escAppend` effect — its bytes are buffered verbatim
inside the current cell but contribute zero to the cell's width and create
no cell or line — and, for a sink that accepts every write, the whole run's
layout (the shape of every flushed block: the line structure and every
column cell's width and terminator) is identical to the run without the
sequence, provided the insertion point follows complete UTF-8 runes and the
sequence does not toggle the final cell between empty and nonempty (it is
the last cell of its line either way, so its content is never padded). -/
theorem C4_zero_width_escapes (cfg : Config) (xs mid ys : List Nat) (fin : Nat)
    (hsink : ∀ n, cfg.sinkOk n = true)
    (hmid : ∀ b ∈ mid, ¬(64 ≤ b ∧ b ≤ 126)) (hfin : 64 ≤ fin ∧ fin ≤ 126)
    (hsp : (writeBytes cfg xs initState).span = Span.none)
    (hcomp : decodeComplete ((writeBytes cfg xs initState).pend))
    (H : 0 < (writeBytes cfg ((xs ++ escSeq mid fin) ++ ys) initState).cellSize
        ↔ 0 < (writeBytes cfg (xs ++ ys) initState).cellSize) :
    writeBytes cfg (xs ++ escSeq mid fin) initState
      = escAppend (writeBytes cfg xs initState) (escSeq mid fin)
    ∧ (run cfg ((xs ++ escSeq mid fin) ++ ys)).shapes
      = (run cfg (xs ++ ys)).shapes := by
  have hrel0 : Rel (writeBytes cfg xs initState) (writeBytes cfg xs initState) :=
    writeBytes_rel cfg hsink xs _ _ initState_rel
  set s0 := writeBytes cfg xs initState with hs0
  have hf0 : s0.failed = false := hrel0.f1
  have hpos0 : s0.pos ≤ s0.buf.length := hrel0.pos1
  have hins : writeBytes cfg (xs ++ escSeq mid fin) initState
      = escAppend s0 (escSeq mid fin) := by
    rw [writeBytes_append]
    exact escSeq_write cfg s0 mid fin hf0 hsp hmid hfin
  refine ⟨hins, ?_⟩
  have hEpend : (escAppend s0 (escSeq mid fin)).pend = [] := by
    simp only [escAppend, updateWidth, State.pend]
    apply List.drop_eq_nil_of_le
    simp
  have hrelE : Rel (escAppend s0 (escSeq mid fin)) s0 := by
    refine ⟨?_, hf0, ?_, ?_, ?_, ?_, ?_, hpos0, s0.pend, hcomp, ?_, ?_, ?_⟩
    · simpa [escAppend, updateWidth] using hf0
    · simp [escAppend, updateWidth]
    · simp [escAppend, updateWidth]
    · simp [escAppend, updateWidth]
    · simp [escAppend, updateWidth]
    · simp [escAppend, updateWidth]
    · rw [hEpend]
      simp
    · simp [escAppend, updateWidth]
    · intro hne
      exact absurd (show (escAppend s0 (escSeq mid fin)).span = Span.none by
        simpa [escAppend, updateWidth] using hsp) hne
  have hrelF : Rel (writeBytes cfg ys (escAppend s0 (escSeq mid fin)))
      (writeBytes cfg ys s0) := writeBytes_rel cfg hsink ys _ _ hrelE
  have e1 : writeBytes cfg ((xs ++ escSeq mid fin) ++ ys) initState
      = writeBytes cfg ys (escAppend s0 (escSeq mid fin)) := by
    rw [writeBytes_append, hins]
  have e2 : writeBytes cfg (xs ++ ys) initState = writeBytes cfg ys s0 := by
    rw [writeBytes_append]
  rw [e1, e2] at H
  show (flush cfg (writeBytes cfg ((xs ++ escSeq mid fin) ++ ys) initState)).shapes
      = (flush cfg (writeBytes cfg (xs ++ ys) initState)).shapes
  rw [e1, e2]
  exact flush_shapes_rel cfg hsink _ _ hrelF H

end Tabwriter

namespace Tabwriter

/-- Witness for C4 at a concrete configuration and input: inserting the
colour sequence ESC `[31m` after `"a\t"` in `"a\tb\n"` is `escAppend` and
leaves the flushed layout shapes unchanged. -/
theorem C4_zero_width_escapes_witness :
    writeBytes (mkCfg 8 0 1 46 false false false false false)
        ([97, 9] ++ escSeq [51, 49] 109) initState
      = escAppend
          (writeBytes (mkCfg 8 0 1 46 false false false false false)
            [97, 9] initState) (escSeq [51, 49] 109)
    ∧ (run (mkCfg 8 0 1 46 false false false false false)
        (([97, 9] ++ escSeq [51, 49] 109) ++ [98, 10])).shapes
      = (run (mkCfg 8 0 1 46 false false false false false)
          ([97, 9] ++ [98, 10])).shapes :=
  C4_zero_width_escapes (mkCfg 8 0 1 46 false false false false false)
    [97, 9] [51, 49] [98, 10] 109
    (fun _ => rfl) (by decide) (by decide) (by decide)
    (by
      rw [show (writeBytes (mkCfg 8 0 1 46 false false false false false)
          [97, 9] initState).pend = [] from by decide]
      exact decodeComplete_nil)
    (by decide)

end Tabwriter